import Mathlib

/-!
# valr: row-wise data-frame subsetting and the grouped interval engine

Shallow embedding of `src/valr_utils.cpp` (the two overloads of
`rowwise_subset_df`, the two overloads of `subset_dataframe`, and
`extract_groups`) together with the interval operations `intersect_impl`
and `merge_impl`, which `src/RcppExports.cpp` only declares.

Conventions of the embedding

* an R vector (`SEXP` of a vector type) is its type tag with its payload;
* a `double` is carried as its IEEE-754 bit pattern, since the code only
  copies doubles and compares nothing;
* a C `int` is an `Int`; `NA_INTEGER` is `INT_MIN`;
* an element of a list column is a reference to an R object, the null
  reference being `R_NilValue`;
* indexing a C array outside its bounds, which the C code does not check,
  is the error `Err.out_of_bounds`; `Rcpp::stop(msg)` is `Err.stop msg`.
-/

namespace Valr

/-! ## R objects -/

/-- Vector types a data-frame column can have besides the five handled ones. -/
inductive OtherType
  | CPLXSXP
  | RAWSXP
  | EXPRSXP
  deriving DecidableEq, Repr

/-- Type tags returned by `TYPEOF`. -/
inductive SEXPTYPE
  | REALSXP
  | INTSXP
  | LGLSXP
  | STRSXP
  | VECSXP
  | OTHER (t : OtherType)
  deriving DecidableEq, Repr

/-- A `CHARSXP`: `none` is the distinguished `NA_STRING` object. -/
abbrev CHARSXP := Option String

/-- A reference to an R object held in a list cell: `none` is `R_NilValue`. -/
abbrev ObjRef := Option Nat

/-- The integer missing value, `INT_MIN`. -/
def NA_INTEGER : Int := -2147483648

/-- The logical missing value; R defines it as `INT_MIN` as well. -/
def NA_LOGICAL : Int := -2147483648

/-- Bit pattern of `NA_REAL`: a quiet NaN whose low word is 1954. -/
def NA_REAL : Nat := 0x7FF00000000007A2

/-- The missing string. -/
def NA_STRING : CHARSXP := none

/-- The null object. -/
def R_NilValue : ObjRef := none

/-- An R vector: a column of a data frame. For the types the code never reads
(`OtherType`) only the length is kept. -/
inductive SEXP
  | real (v : List Nat)
  | int (v : List Int)
  | lgl (v : List Int)
  | str (v : List CHARSXP)
  | list (v : List ObjRef)
  | other (t : OtherType) (len : Nat)
  deriving DecidableEq, Repr

/-- What `TYPEOF` returns for a vector. -/
def TYPEOF : SEXP → SEXPTYPE
  | .real _ => .REALSXP
  | .int _ => .INTSXP
  | .lgl _ => .LGLSXP
  | .str _ => .STRSXP
  | .list _ => .VECSXP
  | .other t _ => .OTHER t

/-- Length of a vector. -/
def SEXP.length : SEXP → Nat
  | .real v => v.length
  | .int v => v.length
  | .lgl v => v.length
  | .str v => v.length
  | .list v => v.length
  | .other _ len => len

/-- What `Rf_allocVector (type, n)` returns: a fresh vector of the given type
and length. Numeric cells are taken as zero, string cells as the empty
string, list cells as `R_NilValue`; the loop overwrites every cell. -/
def allocVector : SEXPTYPE → Nat → SEXP
  | .REALSXP, n => .real (List.replicate n 0)
  | .INTSXP, n => .int (List.replicate n 0)
  | .LGLSXP, n => .lgl (List.replicate n 0)
  | .STRSXP, n => .str (List.replicate n (some ""))
  | .VECSXP, n => .list (List.replicate n R_NilValue)
  | .OTHER t, n => .other t n

/-- One value of a column, tagged with the column type. -/
inductive Cell
  | real (bits : Nat)
  | int (v : Int)
  | lgl (v : Int)
  | str (s : CHARSXP)
  | obj (r : ObjRef)
  deriving DecidableEq, Repr

/-- The cell at 0-based position `i` of a column, if there is one. -/
def SEXP.cell : SEXP → Nat → Option Cell
  | .real v, i => (v.get? i).map Cell.real
  | .int v, i => (v.get? i).map Cell.int
  | .lgl v, i => (v.get? i).map Cell.lgl
  | .str v, i => (v.get? i).map Cell.str
  | .list v, i => (v.get? i).map Cell.obj
  | .other _ _, _ => none

/-- The missing value of each of the five handled column types, as the code
writes it: `Vector<REALSXP>::get_na ()` and so on. -/
def na_cell : SEXPTYPE → Option Cell
  | .REALSXP => some (.real NA_REAL)
  | .INTSXP => some (.int NA_INTEGER)
  | .LGLSXP => some (.lgl NA_LOGICAL)
  | .STRSXP => some (.str NA_STRING)
  | .VECSXP => some (.obj R_NilValue)
  | .OTHER _ => none

/-- The column types the switch of `rowwise_subset_df` has a case for. -/
def supported : SEXPTYPE → Bool
  | .OTHER _ => false
  | _ => true

/-- Errors of the embedding. -/
inductive Err
  | stop (msg : String)
  | out_of_bounds
  deriving DecidableEq, Repr

deriving instance DecidableEq for Except

/-- A data frame: the list of columns with its attributes. `row_names` is the
row count held by the compact `row.names` attribute `c (NA, -n)`, `klass` the
`class` attribute, `attrs` every remaining attribute (for instance `groups`). -/
structure DataFrame where
  names : List String
  columns : List SEXP
  row_names : Nat
  klass : List String
  attrs : List (String × ObjRef)
  deriving DecidableEq, Repr

/-- Number of columns, `x.ncol ()`. -/
def DataFrame.ncol (x : DataFrame) : Nat := x.columns.length

/-- Number of rows, `x.nrow ()`, read off the `row.names` attribute. -/
def DataFrame.nrow (x : DataFrame) : Nat := x.row_names

/-- The cell of column `j` at row `i`. -/
def DataFrame.cell (x : DataFrame) (j i : Nat) : Option Cell :=
  (x.columns.get? j).bind (fun c => c.cell i)

/-! ## `rowwise_subset_df` -/

/-- Unchecked C array read `a[k]` for an `int` index `k`. -/
def read_at {α : Type} (a : List α) (k : Int) : Except Err α :=
  if 0 ≤ k then
    match a.get? k.toNat with
    | some v => .ok v
    | none => .error .out_of_bounds
  else .error .out_of_bounds

/-- Body of the inner loop (lines 35-75 and 124-164): the switch on
`TYPEOF (vec)` that writes cell `i` of `vec` from `element` at row
`row_indices[i]`, here `row`. `vec` was allocated with the type of `element`,
so the two always carry the same tag. -/
def set_cell (element vec : SEXP) (i : Nat) (row : Int) : Except Err SEXP :=
  match vec, element with
  | .real out, .real src =>
    if row = NA_INTEGER then .ok (.real (out.set i NA_REAL))
    else (read_at src row).map (fun v => .real (out.set i v))
  | .int out, .int src =>
    if row = NA_INTEGER then .ok (.int (out.set i NA_INTEGER))
    else (read_at src row).map (fun v => .int (out.set i v))
  | .lgl out, .lgl src =>
    if row = NA_INTEGER then .ok (.lgl (out.set i NA_INTEGER))
    else (read_at src row).map (fun v => .lgl (out.set i v))
  | .str out, .str src =>
    if row = NA_INTEGER then .ok (.str (out.set i NA_STRING))
    else (read_at src row).map (fun v => .str (out.set i v))
  | .list out, .list src =>
    if row = NA_INTEGER then .ok (.list (out.set i R_NilValue))
    else (read_at src row).map (fun v => .list (out.set i v))
  | _, _ => .error (.stop "Incompatible column type detected")

/-- The inner loop `for (int i = 0; i < row_indices_n; ++i)`: the first
argument is what is left of `row_indices` from position `i` on. -/
def inner_loop (element : SEXP) : List Int → Nat → SEXP → Except Err SEXP
  | [], _, vec => .ok vec
  | row :: rest, i, vec =>
    match set_cell element vec i row with
    | .ok vec1 => inner_loop element rest (i + 1) vec1
    | .error e => .error e

/-- The outer loop `for (int j = 0; j < column_indices_n; ++j)`: allocates the
output column, fills it, and stores it at position `j` of the output list. -/
def outer_loop (row_indices : List Int) : List SEXP → Except Err (List SEXP)
  | [] => .ok []
  | element :: rest =>
    match inner_loop element row_indices 0
        (allocVector (TYPEOF element) row_indices.length) with
    | .ok vec =>
      match outer_loop row_indices rest with
      | .ok out => .ok (vec :: out)
      | .error e => .error e
    | .error e => .error e

/-- Lines 16-88, which lines 105-177 repeat token for token: the names are
copied, every column is gathered, the remaining attributes are copied by
`Rf_copyMostAttrib` and `row.names` is set to `c (NA, -row_indices_n)`. -/
def subset_body (x : DataFrame) (row_indices : List Int) : Except Err DataFrame :=
  match outer_loop row_indices x.columns with
  | .ok out =>
    .ok { names := x.names
          columns := out
          row_names := row_indices.length
          klass := x.klass
          attrs := x.attrs }
  | .error e => .error e

/-- The Rcpp sugar expression `row_indices - 1` on an integer vector: a
missing entry stays missing, any other entry is decremented. -/
def sugar_minus_one (row_indices : List Int) : List Int :=
  row_indices.map (fun r => if r = NA_INTEGER then r else r - 1)

/-- The overload of `rowwise_subset_df` taking an `IntegerVector`
(lines 5-90). -/
def rowwise_subset_df_iv (x : DataFrame) (row_indices : List Int) (r_index : Bool) :
    Except Err DataFrame :=
  let row_indices := if r_index then sugar_minus_one row_indices else row_indices
  subset_body x row_indices

/-- The range-for loop of lines 100-102, whose body is `i--`, with `i`
declared `auto`: `i` is a copy of the element, so the decrement is lost and
the vector is left as it was. The fold threads the vector through the
iterations. -/
def range_for_decrement (row_indices : List Int) : List Int :=
  row_indices.foldl (fun (v : List Int) (i : Int) => let _i := i - 1; v) row_indices

/-- The overload of `rowwise_subset_df` taking a `std::vector<int>`
(lines 92-179). -/
def rowwise_subset_df_sv (x : DataFrame) (row_indices : List Int) (r_index : Bool) :
    Except Err DataFrame :=
  let row_indices := if r_index then range_for_decrement row_indices else row_indices
  subset_body x row_indices

/-- The overload `subset_dataframe (df, std::vector<int>)`, lines 181-186. -/
def subset_dataframe_sv (df : DataFrame) (indices : List Int) : Except Err DataFrame :=
  rowwise_subset_df_sv df indices false

/-- The overload `subset_dataframe (df, IntegerVector)`, lines 188-193. -/
def subset_dataframe_iv (df : DataFrame) (indices : List Int) : Except Err DataFrame :=
  rowwise_subset_df_iv df indices false

/-! ## `extract_groups` -/

/-- The loop of lines 208-211, from position `i` on with `k` iterations left:
`res[i] = x[i]` and `new_names[i] = df_names[i]`. -/
def extract_loop (cols : List SEXP) (df_names : List String) :
    Nat → Nat → Except Err (List SEXP × List String)
  | 0, _ => .ok ([], [])
  | k + 1, i =>
    match read_at cols (i : Int), read_at df_names (i : Int) with
    | .ok c, .ok nm =>
      match extract_loop cols df_names k (i + 1) with
      | .ok (res, new_names) => .ok (c :: res, nm :: new_names)
      | .error e => .error e
    | .error e, _ => .error e
    | _, .error e => .error e

/-- Modelled from the spec: the helper `set_rownames (res, n)` is declared in
`valr.h`, which is not in `src/`, and the specification keeps the row count
with the table; it is taken to store the row count `n` in the compact
`row.names` attribute, as lines 85-86 do by hand. -/
def set_rownames (res : DataFrame) (n : Nat) : DataFrame :=
  { res with row_names := n }

/-- The function `extract_groups` (lines 201-217). `n = x.ncol () - 1` is an
`int`; constructing a list of negative length is an R error. The result is a
fresh list whose only attributes are `row.names`, `names` and
`class = "data.frame"`, set in that order. -/
def extract_groups (x : DataFrame) : Except Err DataFrame :=
  let n : Int := (x.ncol : Int) - 1
  if n < 0 then .error (.stop "negative length vectors are not allowed")
  else
    match extract_loop x.columns x.names n.toNat 0 with
    | .ok (res, new_names) =>
      let res : DataFrame :=
        { names := [], columns := res, row_names := 0, klass := [], attrs := [] }
      let res := set_rownames res x.nrow
      let res := { res with names := new_names }
      let res := { res with klass := ["data.frame"] }
      .ok res
    | .error e => .error e

/-! ## Closed forms used in the proofs -/

/-- One gathered value: the missing value for the sentinel row, the source
value otherwise. -/
def gather_cell {α : Type} (na : α) (src : List α) (row : Int) : Except Err α :=
  if row = NA_INTEGER then .ok na else read_at src row

/-- The values gathered for a whole selection, in selection order. -/
def gather {α : Type} (na : α) (src : List α) : List Int → Except Err (List α)
  | [] => .ok []
  | row :: rest =>
    match gather_cell na src row with
    | .ok v =>
      match gather na src rest with
      | .ok vs => .ok (v :: vs)
      | .error e => .error e
    | .error e => .error e

/-- The gathered value when the row is the sentinel or in bounds. -/
def pick {α : Type} (na : α) (src : List α) (row : Int) : α :=
  if row = NA_INTEGER then na else src.getD row.toNat na

/-- The gathered column when every row is the sentinel or in bounds. -/
def pick_column (rows : List Int) : SEXP → SEXP
  | .real v => .real (rows.map (pick NA_REAL v))
  | .int v => .int (rows.map (pick NA_INTEGER v))
  | .lgl v => .lgl (rows.map (pick NA_INTEGER v))
  | .str v => .str (rows.map (pick NA_STRING v))
  | .list v => .list (rows.map (pick R_NilValue v))
  | .other t _ => .other t rows.length

/-- What the inner loop returns for one column, started on the freshly
allocated output column. -/
def column_result : SEXP → List Int → Except Err SEXP
  | .real v, rows => (gather NA_REAL v rows).map SEXP.real
  | .int v, rows => (gather NA_INTEGER v rows).map SEXP.int
  | .lgl v, rows => (gather NA_INTEGER v rows).map SEXP.lgl
  | .str v, rows => (gather NA_STRING v rows).map SEXP.str
  | .list v, rows => (gather R_NilValue v rows).map SEXP.list
  | .other t _, rows =>
    if rows = [] then .ok (.other t 0)
    else .error (.stop "Incompatible column type detected")

/-- Every entry of the selection is the sentinel or a position below `n`. -/
def valid_rows (n : Nat) (rows : List Int) : Prop :=
  ∀ r ∈ rows, r = NA_INTEGER ∨ (0 ≤ r ∧ r < (n : Int))

/-- Every column has one of the five handled types. -/
def all_supported (x : DataFrame) : Prop :=
  ∀ c ∈ x.columns, supported (TYPEOF c) = true

/-- Every column has `n` cells. -/
def all_length (x : DataFrame) (n : Nat) : Prop :=
  ∀ c ∈ x.columns, c.length = n

instance (n : Nat) (rows : List Int) : Decidable (valid_rows n rows) := by
  unfold valid_rows; infer_instance

instance (x : DataFrame) : Decidable (all_supported x) := by
  unfold all_supported; infer_instance

instance (x : DataFrame) (n : Nat) : Decidable (all_length x n) := by
  unfold all_length; infer_instance

/-- Column names, column count and column types of a table. -/
def schema (x : DataFrame) : List String × Nat × List SEXPTYPE :=
  (x.names, x.ncol, x.columns.map TYPEOF)

/-- A table with a text, an integer, a real, a logical and a list column and
two rows, the second of which holds a missing value in every column. -/
def table_five : DataFrame :=
  { names := ["chrom", "start", "score", "flag", "info"],
    columns := [.str [some "chr1", none], .int [10, -2147483648],
      .real [0x3FF0000000000000, 0x7FF00000000007A2], .lgl [1, -2147483648],
      .list [some 7, none]],
    row_names := 2, klass := ["tbl_df", "data.frame"], attrs := [("groups", some 3)] }

/-- A table whose second column is complex, a type outside the five handled
ones. -/
def table_cplx : DataFrame :=
  { names := ["start", "z"], columns := [.int [10, 20], .other .CPLXSXP 2],
    row_names := 2, klass := ["data.frame"], attrs := [] }

/-- A grouping table as `group_data` lays it out: the key column first and the
row-list column `.rows` last. -/
def table_groups : DataFrame :=
  { names := ["chrom", "strand", ".rows"],
    columns := [.str [some "chr1", some "chr2"], .str [some "+", none],
      .list [some 1, some 2]],
    row_names := 2, klass := ["tbl_df", "tbl", "data.frame"], attrs := [(".drop", some 9)] }

/-- A two-row table with one integer column. -/
def table_int : DataFrame :=
  { names := ["start"], columns := [.int [10, 20]],
    row_names := 2, klass := ["data.frame"], attrs := [] }

/-! ## The interval engine

`src/RcppExports.cpp` declares `intersect_impl` and `merge_impl` and calls
them; their bodies are in no file of `src/`. They are modelled from
sections 3, 4 and 7 of the specification. -/

/-- Modelled from the spec: the group key of section 3, "an ordered tuple of
column values", compared by exact equality. -/
abbrev GroupKey := List String

/-- Modelled from the spec: the interval row of section 3, the logical view
`group_key (r)`, `start (r)`, `end (r)` of a row of a grouped interval table.
Rows with `start > end` are permitted input. -/
structure IntervalRow where
  group : GroupKey
  start : Int
  end_ : Int
  deriving DecidableEq, Repr

/-- Modelled from the spec: the triple `(start, end, original_row_position)`
that sections 4.3 and 4.4 build for every row of a group. -/
structure Ival where
  start : Int
  end_ : Int
  row : Nat
  deriving DecidableEq, Repr

/-- Modelled from the spec: the error kinds of section 7 the engine raises. -/
inductive EngineErr
  | InvalidGrouping
  | SchemaMismatch
  | InvalidDistance
  deriving DecidableEq, Repr

/-- Modelled from the spec: the distinct keys of section 4.1 in the order of
their first occurrence. -/
def first_occurrences : List GroupKey → List GroupKey
  | [] => []
  | k :: ks => k :: (first_occurrences ks).filter (fun k1 => decide (k1 ≠ k))

/-- Modelled from the spec: `keys ()` of the Group Index of section 4.1. -/
def group_keys (t : List IntervalRow) : List GroupKey :=
  first_occurrences (t.map (fun r => r.group))

/-- The triple of the row at position `p.1`. -/
def to_ival (p : Nat × IntervalRow) : Ival :=
  { start := p.2.start, end_ := p.2.end_, row := p.1 }

/-- Modelled from the spec: `rows_for (key)` of section 4.1, the row positions
sharing the key in table order, each with its interval; empty for an absent
key. -/
def group_rows (t : List IntervalRow) (key : GroupKey) : List Ival :=
  (t.enum.filter (fun p => decide (p.2.group = key))).map to_ival

/-- Modelled from the spec: the order of sections 4.3 and 4.4, "by `start`
ascending, ties broken by `end` ascending". -/
def ival_le (a b : Ival) : Prop :=
  a.start < b.start ∨ (a.start = b.start ∧ a.end_ ≤ b.end_)

instance : DecidableRel ival_le := fun a b => by
  unfold ival_le; infer_instance

/-- Modelled from the spec: the stable sort of a group's intervals. -/
def sort_ivals (l : List Ival) : List Ival :=
  l.insertionSort ival_le

/-- Modelled from the spec: a span emitted by the Interval Merger of
section 4.4: group key, merged start, merged end and the ordered list of
contributing row positions. -/
structure Span where
  group : GroupKey
  start : Int
  end_ : Int
  rows : List Nat
  deriving DecidableEq, Repr

/-- Modelled from the spec: the span opened from one interval, with
`span_end = end` and the membership list holding its row. -/
def open_span (key : GroupKey) (iv : Ival) : Span :=
  { group := key, start := iv.start, end_ := iv.end_, rows := [iv.row] }

/-- Modelled from the spec: the extension of the open span by one interval,
`span_end = max (span_end, end)`, the row appended to the membership, the
start kept at the minimum of the members. -/
def extend_span (cur : Span) (iv : Ival) : Span :=
  { group := cur.group, start := min cur.start iv.start,
    end_ := max cur.end_ iv.end_, rows := cur.rows ++ [iv.row] }

/-- Modelled from the spec: the loop of section 4.4 over the intervals after
the first, with the open span `cur`: extend when
`start - span_end <= max_dist`, otherwise close `cur` and open a new span;
after the loop the open span is closed. -/
def coalesce (max_dist : Int) (key : GroupKey) : Span → List Ival → List Span
  | cur, [] => [cur]
  | cur, iv :: rest =>
    if iv.start - cur.end_ ≤ max_dist then coalesce max_dist key (extend_span cur iv) rest
    else cur :: coalesce max_dist key (open_span key iv) rest

/-- Modelled from the spec: the Interval Merger of section 4.4 on one group,
given the sorted intervals. -/
def merge_group (max_dist : Int) (key : GroupKey) : List Ival → List Span
  | [] => []
  | first :: rest => coalesce max_dist key (open_span key first) rest

/-- Modelled from the spec: `merge_impl (df, max_dist)`, declared in
`RcppExports.cpp` with no body in `src/`: a negative `max_dist` is rejected
with `InvalidDistance`; otherwise every group of the Group Index, in key
order, is sorted and coalesced, and the spans are emitted one row each. -/
def merge_impl (df : List IntervalRow) (max_dist : Int) : Except EngineErr (List Span) :=
  if max_dist < 0 then .error .InvalidDistance
  else .ok ((group_keys df).flatMap
    (fun key => merge_group max_dist key (sort_ivals (group_rows df key))))

/-- Smallest start of a non-empty list of intervals. -/
def min_start : List Ival → Int
  | [] => 0
  | iv :: rest => rest.foldl (fun m x => min m x.start) iv.start

/-- Largest end of a non-empty list of intervals. -/
def max_end : List Ival → Int
  | [] => 0
  | iv :: rest => rest.foldl (fun m x => max m x.end_) iv.end_

/-- The span that reports a non-empty list of member intervals. -/
def span_of (key : GroupKey) (members : List Ival) : Span :=
  { group := key, start := min_start members, end_ := max_end members,
    rows := members.map (fun iv => iv.row) }

/-- The intervals `[1,5)`, `[5,9)`, `[20,25)` over one group. -/
def table_merge : List IntervalRow :=
  [⟨["chr1"], 1, 5⟩, ⟨["chr1"], 5, 9⟩, ⟨["chr1"], 20, 25⟩]

/-- Modelled from the spec: the Group Matcher of section 4.2, the keys present
in both indexes in the order of their first appearance in `index_a`. -/
def match_groups (keys_a keys_b : List GroupKey) : List GroupKey :=
  keys_a.filter (fun k => decide (k ∈ keys_b))

/-- Modelled from the spec: the half-open rule of section 3, two intervals
`[s1,e1)` and `[s2,e2)` overlap iff `s1 < e2 AND s2 < e1`. -/
def overlaps (a b : Ival) : Bool :=
  decide (a.start < b.end_) && decide (b.start < a.end_)

/-- Modelled from the spec: an interval that contains a point. Section 4.3
has the degenerate intervals (`start == end`) skipped, and section 7 has the
rows with `start > end` "treated as containing no points" and excluded from
any reported overlap. -/
def has_points (iv : Ival) : Bool :=
  decide (iv.start < iv.end_)

/-- Modelled from the spec: the work of the sweep of section 4.3 for one
A-interval `a`, given the active set and the B-intervals not yet reached:
evict from the active set every B-interval with `end <= a.start`, reach the
B-intervals with `start < a.end`, test the remaining active members and the
newly reached intervals for overlap, and keep as active those whose
`end > a.start`. Returns the emitted pairs, the active set and the intervals
still to reach. -/
def sweep_step (a : Ival) (active pending : List Ival) :
    List (Nat × Nat) × List Ival × List Ival :=
  let active1 := active.filter (fun b => decide (a.start < b.end_))
  let reached := pending.takeWhile (fun b => decide (b.start < a.end_))
  let pending1 := pending.dropWhile (fun b => decide (b.start < a.end_))
  (((active1 ++ reached).filter (fun b => overlaps a b)).map (fun b => (a.row, b.row)),
    active1 ++ reached.filter (fun b => decide (a.start < b.end_)),
    pending1)

/-- Modelled from the spec: the sweep of section 4.3 over the A-intervals in
increasing start order. -/
def sweep : List Ival → List Ival → List Ival → List (Nat × Nat)
  | [], _, _ => []
  | a :: rest, active, pending =>
    (sweep_step a active pending).1
      ++ sweep rest (sweep_step a active pending).2.1 (sweep_step a active pending).2.2

/-- Modelled from the spec: the Interval Sweep Intersector of section 4.3 on
one matched group: the two lists of triples, without the intervals that hold
no point, each sorted by start then end, are swept. -/
def intersect_group (rows_a rows_b : List Ival) : List (Nat × Nat) :=
  sweep (sort_ivals (rows_a.filter has_points)) []
    (sort_ivals (rows_b.filter has_points))

/-- Modelled from the spec: `intersect_impl (df_a, df_b)`, declared in
`RcppExports.cpp` with no body in `src/`: the Group Matcher pairs the groups,
the sweep runs on every matched group in key order, and every emitted pair
`(row_a, row_b)` of row positions is one row of the result, which the Row
Projector fills with the columns of both rows. -/
def intersect_impl (df_a df_b : List IntervalRow) : List (Nat × Nat) :=
  (match_groups (group_keys df_a) (group_keys df_b)).flatMap
    (fun key => intersect_group (group_rows df_a key) (group_rows df_b key))

/-- Modelled from the spec: the derived column `overlap_length` of section 6,
`min (end_a, end_b) - max (start_a, start_b)`. -/
def overlap_length (ra rb : IntervalRow) : Int :=
  min ra.end_ rb.end_ - max ra.start rb.start

/-- The brute-force pairwise comparison as C5 words it: every pair of rows in
the same group with `start_a < end_b` and `start_b < end_a`. -/
def brute_force_pairs (df_a df_b : List IntervalRow) : List (Nat × Nat) :=
  df_a.enum.flatMap (fun pa =>
    (df_b.enum.filter (fun pb =>
      decide (pa.2.group = pb.2.group) && decide (pa.2.start < pb.2.end_)
        && decide (pb.2.start < pa.2.end_))).map (fun pb => (pa.1, pb.1)))

/-- The brute-force pairwise comparison restricted to the intervals that hold
a point (`start < end`). -/
def brute_force_nonempty_pairs (df_a df_b : List IntervalRow) : List (Nat × Nat) :=
  df_a.enum.flatMap (fun pa =>
    (df_b.enum.filter (fun pb =>
      decide (pa.2.group = pb.2.group) && decide (pa.2.start < pa.2.end_)
        && decide (pb.2.start < pb.2.end_) && decide (pa.2.start < pb.2.end_)
        && decide (pb.2.start < pa.2.end_))).map (fun pb => (pa.1, pb.1)))

/-- A table with the degenerate interval `[5,5)`. -/
def table_degenerate : List IntervalRow := [⟨["chr1"], 5, 5⟩]

/-- A table with the interval `[1,10)` in the same group. -/
def table_cover : List IntervalRow := [⟨["chr1"], 1, 10⟩]

/-- The gap rule between consecutive spans: the first interval of the later
span starts more than `max_dist` past the end of the earlier span. -/
def span_gap (max_dist : Int) (p q : List Ival) : Prop :=
  ∀ iv, q.head? = some iv → max_dist < iv.start - max_end p

instance : IsTotal Ival ival_le where
  total a b := by unfold ival_le; omega

instance : IsTrans Ival ival_le where
  trans a b c := by unfold ival_le; omega

/-! ## Lemmas on the loops -/

theorem set_take_succ {α : Type} (v : α) :
    ∀ (out : List α) (i : Nat), i < out.length →
      (out.set i v).take (i + 1) = out.take i ++ [v] := by
  intro out
  induction out with
  | nil => intro i h; simp at h
  | cons a t ih =>
    intro i h
    cases i with
    | zero => simp
    | succ k =>
      have hk : k < t.length := by simpa using h
      simp [List.set, List.take, ih k hk]

theorem set_drop_succ {α : Type} (v : α) :
    ∀ (out : List α) (i k : Nat),
      (out.set i v).drop (i + 1 + k) = out.drop (i + 1 + k) := by
  intro out
  induction out with
  | nil => intro i k; simp
  | cons a t ih =>
    intro i k
    cases i with
    | zero => simp [List.set, Nat.add_comm 1 k]
    | succ j =>
      have h1 : j + 1 + 1 + k = (j + 1 + k) + 1 := by omega
      rw [h1]
      simp only [List.set, List.drop]
      exact ih j k

theorem inner_loop_generic {α : Type} (element : SEXP) (wrap : List α → SEXP)
    (na : α) (src : List α)
    (hstep : ∀ (out : List α) (i : Nat) (row : Int),
      set_cell element (wrap out) i row
        = (gather_cell na src row).map (fun v => wrap (out.set i v))) :
    ∀ (rows : List Int) (i : Nat) (out : List α), i + rows.length ≤ out.length →
      inner_loop element rows i (wrap out)
        = (gather na src rows).map
            (fun vs => wrap (out.take i ++ vs ++ out.drop (i + vs.length))) := by
  intro rows
  induction rows with
  | nil =>
    intro i out _
    simp [inner_loop, gather, Except.map]
  | cons row rest ih =>
    intro i out hlen
    simp only [List.length_cons] at hlen
    simp only [inner_loop, gather, hstep]
    cases hg : gather_cell na src row with
    | error e => simp [Except.map]
    | ok v =>
      simp only [Except.map]
      have hl : i + 1 + rest.length ≤ (out.set i v).length := by
        simp only [List.length_set]; omega
      rw [ih (i + 1) (out.set i v) hl]
      cases hr : gather na src rest with
      | error e => simp [Except.map]
      | ok vs =>
        simp only [Except.map]
        have hi : i < out.length := by omega
        rw [set_take_succ v out i hi, set_drop_succ v out i vs.length]
        have h2 : i + (v :: vs).length = i + 1 + vs.length := by
          simp only [List.length_cons]; omega
        rw [h2]
        simp

theorem gather_length {α : Type} (na : α) (src : List α) :
    ∀ (rows : List Int) (vs : List α), gather na src rows = .ok vs →
      vs.length = rows.length := by
  intro rows
  induction rows with
  | nil => intro vs h; simp [gather] at h; subst h; rfl
  | cons row rest ih =>
    intro vs h
    simp only [gather] at h
    cases hc : gather_cell na src row with
    | error e => rw [hc] at h; simp at h
    | ok v =>
      rw [hc] at h
      cases hr : gather na src rest with
      | error e => rw [hr] at h; simp at h
      | ok ws =>
        rw [hr] at h
        simp only [Except.ok.injEq] at h
        subst h
        simp [ih ws hr]

theorem inner_loop_wrapped {α : Type} (element : SEXP) (wrap : List α → SEXP)
    (na z : α) (src : List α)
    (hstep : ∀ (out : List α) (i : Nat) (row : Int),
      set_cell element (wrap out) i row
        = (gather_cell na src row).map (fun v => wrap (out.set i v)))
    (rows : List Int) :
    inner_loop element rows 0 (wrap (List.replicate rows.length z))
      = (gather na src rows).map wrap := by
  rw [inner_loop_generic element wrap na src hstep rows 0 _ (by simp)]
  cases hg : gather na src rows with
  | error e => simp [Except.map]
  | ok vs =>
    have hl := gather_length na src rows vs hg
    simp [Except.map, hl]

theorem set_cell_other (t : OtherType) (len : Nat) (vec : SEXP) (i : Nat) (row : Int) :
    set_cell (.other t len) vec i row
      = .error (.stop "Incompatible column type detected") := by
  cases vec <;> rfl

theorem inner_loop_alloc (c : SEXP) (rows : List Int) :
    inner_loop c rows 0 (allocVector (TYPEOF c) rows.length) = column_result c rows := by
  cases c with
  | real v =>
    exact inner_loop_wrapped (.real v) SEXP.real NA_REAL 0 v
      (by intro out i row; simp only [set_cell, gather_cell]; split <;> rfl) rows
  | int v =>
    exact inner_loop_wrapped (.int v) SEXP.int NA_INTEGER 0 v
      (by intro out i row; simp only [set_cell, gather_cell]; split <;> rfl) rows
  | lgl v =>
    exact inner_loop_wrapped (.lgl v) SEXP.lgl NA_INTEGER 0 v
      (by intro out i row; simp only [set_cell, gather_cell]; split <;> rfl) rows
  | str v =>
    exact inner_loop_wrapped (.str v) SEXP.str NA_STRING (some "") v
      (by intro out i row; simp only [set_cell, gather_cell]; split <;> rfl) rows
  | list v =>
    exact inner_loop_wrapped (.list v) SEXP.list R_NilValue R_NilValue v
      (by intro out i row; simp only [set_cell, gather_cell]; split <;> rfl) rows
  | other t len =>
    cases rows with
    | nil => simp [inner_loop, column_result, allocVector, TYPEOF]
    | cons row rest =>
      simp [inner_loop, column_result, set_cell_other]

theorem read_at_valid {α : Type} (na : α) (src : List α) (r : Int)
    (h0 : 0 ≤ r) (h1 : r < (src.length : Int)) :
    read_at src r = .ok (src.getD r.toNat na) := by
  have hlt : r.toNat < src.length := by omega
  simp [read_at, h0, List.getD, List.getElem?_eq_getElem hlt]

theorem na_integer_neg : NA_INTEGER < 0 := by decide

theorem gather_cell_valid {α : Type} (na : α) (src : List α) (r : Int)
    (h : r = NA_INTEGER ∨ (0 ≤ r ∧ r < (src.length : Int))) :
    gather_cell na src r = .ok (pick na src r) := by
  unfold gather_cell pick
  by_cases hr : r = NA_INTEGER
  · simp [hr]
  · rcases h with h | ⟨h0, h1⟩
    · exact absurd h hr
    · simp only [hr, if_false]
      exact read_at_valid na src r h0 h1

theorem gather_valid {α : Type} (na : α) (src : List α) :
    ∀ (rows : List Int), valid_rows src.length rows →
      gather na src rows = .ok (rows.map (pick na src)) := by
  intro rows
  induction rows with
  | nil => intro _; rfl
  | cons row rest ih =>
    intro h
    have h1 := gather_cell_valid na src row (h row (List.mem_cons_self _ _))
    have h2 := ih (fun r hr => h r (List.mem_cons_of_mem _ hr))
    simp [gather, h1, h2]

theorem read_at_error {α : Type} (src : List α) (r : Int) (e : Err)
    (h : read_at src r = .error e) : e = .out_of_bounds := by
  unfold read_at at h
  split at h
  · split at h
    · cases h
    · cases h; rfl
  · cases h; rfl

theorem gather_error {α : Type} (na : α) (src : List α) :
    ∀ (rows : List Int) (e : Err), gather na src rows = .error e →
      e = .out_of_bounds := by
  intro rows
  induction rows with
  | nil => intro e h; cases h
  | cons row rest ih =>
    intro e h
    simp only [gather] at h
    cases hc : gather_cell na src row with
    | error e1 =>
      rw [hc] at h
      simp only [Except.error.injEq] at h
      subst h
      unfold gather_cell at hc
      split at hc
      · cases hc
      · exact read_at_error src row _ hc
    | ok v =>
      rw [hc] at h
      cases hr : gather na src rest with
      | error e2 =>
        rw [hr] at h
        simp only [Except.error.injEq] at h
        subst h
        exact ih _ hr
      | ok ws => rw [hr] at h; cases h

theorem map_error {α β : Type} (f : α → β) (x : Except Err α) (e : Err)
    (h : x.map f = .error e) : x = .error e := by
  cases x with
  | error e1 => simpa [Except.map] using h
  | ok v => simp [Except.map] at h

theorem column_result_valid (c : SEXP) (rows : List Int)
    (hs : supported (TYPEOF c) = true) (hv : valid_rows c.length rows) :
    column_result c rows = .ok (pick_column rows c) := by
  cases c with
  | real v => simp [column_result, pick_column, gather_valid NA_REAL v rows hv, Except.map]
  | int v => simp [column_result, pick_column, gather_valid NA_INTEGER v rows hv, Except.map]
  | lgl v => simp [column_result, pick_column, gather_valid NA_INTEGER v rows hv, Except.map]
  | str v => simp [column_result, pick_column, gather_valid NA_STRING v rows hv, Except.map]
  | list v => simp [column_result, pick_column, gather_valid R_NilValue v rows hv, Except.map]
  | other t len => simp [supported, TYPEOF] at hs

theorem column_result_stop (c : SEXP) (rows : List Int) (msg : String)
    (h : column_result c rows = .error (.stop msg)) :
    supported (TYPEOF c) = false ∧ rows ≠ [] ∧
      msg = "Incompatible column type detected" := by
  cases c with
  | real v => exact absurd (gather_error _ _ _ _ (map_error _ _ _ h)) (by simp)
  | int v => exact absurd (gather_error _ _ _ _ (map_error _ _ _ h)) (by simp)
  | lgl v => exact absurd (gather_error _ _ _ _ (map_error _ _ _ h)) (by simp)
  | str v => exact absurd (gather_error _ _ _ _ (map_error _ _ _ h)) (by simp)
  | list v => exact absurd (gather_error _ _ _ _ (map_error _ _ _ h)) (by simp)
  | other t len =>
    simp only [column_result] at h
    split at h
    · cases h
    · rename_i hne
      simp only [Except.error.injEq, Err.stop.injEq] at h
      exact ⟨rfl, hne, h.symm⟩

theorem column_result_other (t : OtherType) (len : Nat) (rows : List Int)
    (hne : rows ≠ []) :
    column_result (.other t len) rows
      = .error (.stop "Incompatible column type detected") := by
  simp [column_result, hne]

theorem outer_loop_cons (rows : List Int) (c : SEXP) (rest : List SEXP) :
    outer_loop rows (c :: rest)
      = match column_result c rows with
        | .ok vec =>
          match outer_loop rows rest with
          | .ok out => .ok (vec :: out)
          | .error e => .error e
        | .error e => .error e := by
  simp only [outer_loop, inner_loop_alloc]

theorem outer_loop_valid (n : Nat) (rows : List Int) (hv : valid_rows n rows) :
    ∀ (cols : List SEXP),
      (∀ c ∈ cols, supported (TYPEOF c) = true) → (∀ c ∈ cols, c.length = n) →
      outer_loop rows cols = .ok (cols.map (pick_column rows)) := by
  intro cols
  induction cols with
  | nil => intro _ _; rfl
  | cons c rest ih =>
    intro hs hl
    have hc := column_result_valid c rows (hs c (List.mem_cons_self _ _))
      (by rw [hl c (List.mem_cons_self _ _)]; exact hv)
    have hr := ih (fun d hd => hs d (List.mem_cons_of_mem _ hd))
      (fun d hd => hl d (List.mem_cons_of_mem _ hd))
    rw [outer_loop_cons, hc, hr]
    rfl

theorem outer_loop_empty : ∀ (cols : List SEXP),
    outer_loop [] cols = .ok (cols.map (pick_column [])) := by
  intro cols
  induction cols with
  | nil => rfl
  | cons c rest ih =>
    rw [outer_loop_cons, ih]
    cases c <;> rfl

theorem outer_loop_stop (rows : List Int) (msg : String) :
    ∀ (cols : List SEXP), outer_loop rows cols = .error (.stop msg) →
      rows ≠ [] ∧ msg = "Incompatible column type detected" ∧
        ∃ c ∈ cols, supported (TYPEOF c) = false := by
  intro cols
  induction cols with
  | nil => intro h; cases h
  | cons c rest ih =>
    intro h
    rw [outer_loop_cons] at h
    cases hc : column_result c rows with
    | error e =>
      rw [hc] at h
      simp only [Except.error.injEq] at h
      subst h
      obtain ⟨h1, h2, h3⟩ := column_result_stop c rows msg hc
      exact ⟨h2, h3, c, List.mem_cons_self _ _, h1⟩
    | ok vec =>
      rw [hc] at h
      cases hr : outer_loop rows rest with
      | error e =>
        rw [hr] at h
        simp only [Except.error.injEq] at h
        subst h
        obtain ⟨h1, h2, d, hd, h3⟩ := ih hr
        exact ⟨h1, h2, d, List.mem_cons_of_mem _ hd, h3⟩
      | ok out => rw [hr] at h; cases h

theorem outer_loop_unsupported (n : Nat) (rows : List Int) (hv : valid_rows n rows)
    (hne : rows ≠ []) :
    ∀ (cols : List SEXP), (∀ c ∈ cols, c.length = n) →
      (∃ c ∈ cols, supported (TYPEOF c) = false) →
      outer_loop rows cols = .error (.stop "Incompatible column type detected") := by
  intro cols
  induction cols with
  | nil => intro _ h; obtain ⟨c, hc, _⟩ := h; cases hc
  | cons c rest ih =>
    intro hl hex
    rw [outer_loop_cons]
    by_cases hs : supported (TYPEOF c) = true
    · have hc := column_result_valid c rows hs
        (by rw [hl c (List.mem_cons_self _ _)]; exact hv)
      have hex2 : ∃ d ∈ rest, supported (TYPEOF d) = false := by
        obtain ⟨d, hd, hd2⟩ := hex
        rcases List.mem_cons.mp hd with h | h
        · subst h; rw [hs] at hd2; cases hd2
        · exact ⟨d, h, hd2⟩
      rw [hc, ih (fun d hd => hl d (List.mem_cons_of_mem _ hd)) hex2]
    · cases c with
      | other t len => rw [column_result_other t len rows hne]
      | _ => simp [supported, TYPEOF] at hs

theorem na_logical_eq : NA_LOGICAL = NA_INTEGER := rfl

theorem getD_cell {α : Type} (na : α) (v : List α) (k : Nat) (hk : k < v.length)
    (f : α → Cell) : some (f (v.getD k na)) = (v.get? k).map f := by
  simp [List.getD, List.getElem?_eq_getElem hk]

theorem pick_column_cell (c : SEXP) (rows : List Int) (i : Nat) (r : Int)
    (hs : supported (TYPEOF c) = true) (hr : rows.get? i = some r)
    (hv : r = NA_INTEGER ∨ (0 ≤ r ∧ r < (c.length : Int))) :
    (pick_column rows c).cell i
      = if r = NA_INTEGER then na_cell (TYPEOF c) else c.cell r.toNat := by
  have hr2 : rows[i]? = some r := by simpa using hr
  by_cases hna : r = NA_INTEGER
  · cases c <;>
      first
      | (simp [supported, TYPEOF] at hs; done)
      | simp [pick_column, SEXP.cell, hr2, pick, hna, na_cell, TYPEOF, na_logical_eq]
  · have hb : 0 ≤ r ∧ r < (c.length : Int) := by
      rcases hv with h | h
      · exact absurd h hna
      · exact h
    cases c with
    | other t len => simp [supported, TYPEOF] at hs
    | real v =>
      have hk : r.toNat < v.length := by simp only [SEXP.length] at hb; omega
      simpa [pick_column, SEXP.cell, hr2, pick, hna] using getD_cell NA_REAL v _ hk Cell.real
    | int v =>
      have hk : r.toNat < v.length := by simp only [SEXP.length] at hb; omega
      simpa [pick_column, SEXP.cell, hr2, pick, hna] using getD_cell NA_INTEGER v _ hk Cell.int
    | lgl v =>
      have hk : r.toNat < v.length := by simp only [SEXP.length] at hb; omega
      simpa [pick_column, SEXP.cell, hr2, pick, hna] using getD_cell NA_INTEGER v _ hk Cell.lgl
    | str v =>
      have hk : r.toNat < v.length := by simp only [SEXP.length] at hb; omega
      simpa [pick_column, SEXP.cell, hr2, pick, hna] using getD_cell NA_STRING v _ hk Cell.str
    | list v =>
      have hk : r.toNat < v.length := by simp only [SEXP.length] at hb; omega
      simpa [pick_column, SEXP.cell, hr2, pick, hna] using getD_cell R_NilValue v _ hk Cell.obj

theorem pick_column_typeof (rows : List Int) (c : SEXP) :
    TYPEOF (pick_column rows c) = TYPEOF c := by
  cases c <;> rfl

theorem pick_column_length (rows : List Int) (c : SEXP) :
    (pick_column rows c).length = rows.length := by
  cases c <;> simp [pick_column, SEXP.length]

theorem na_cell_supported (t : SEXPTYPE) (h : supported t = true) :
    (na_cell t).isSome = true := by
  cases t <;> first | rfl | simp [supported] at h

theorem subset_body_valid (x : DataFrame) (rows : List Int) (n : Nat)
    (hs : all_supported x) (hl : all_length x n) (hv : valid_rows n rows) :
    subset_body x rows
      = .ok { names := x.names
              columns := x.columns.map (pick_column rows)
              row_names := rows.length
              klass := x.klass
              attrs := x.attrs } := by
  simp only [subset_body, outer_loop_valid n rows hv x.columns hs hl]

theorem subset_body_cell (x : DataFrame) (rows : List Int) (n : Nat)
    (hs : all_supported x) (hl : all_length x n) (hv : valid_rows n rows)
    (out : DataFrame) (ho : subset_body x rows = .ok out)
    (j i : Nat) (r : Int) (c : SEXP)
    (hc : x.columns.get? j = some c) (hr : rows.get? i = some r) :
    out.cell j i = if r = NA_INTEGER then na_cell (TYPEOF c) else x.cell j r.toNat := by
  rw [subset_body_valid x rows n hs hl hv] at ho
  simp only [Except.ok.injEq] at ho
  subst ho
  have hc2 : x.columns[j]? = some c := by simpa using hc
  have hmem : c ∈ x.columns := List.getElem?_mem hc2
  have hrm : r ∈ rows := List.get?_mem hr
  have hvr : r = NA_INTEGER ∨ (0 ≤ r ∧ r < (c.length : Int)) := by
    rw [hl c hmem]; exact hv r hrm
  have h := pick_column_cell c rows i r (hs c hmem) hr hvr
  simp only [DataFrame.cell, List.get?_eq_getElem?, List.getElem?_map, hc2, Option.map_some,
    Option.some_bind]
  simpa using h

theorem cell_in_bounds (c : SEXP) (k : Nat) (hs : supported (TYPEOF c) = true)
    (hk : k < c.length) : (c.cell k).isSome = true := by
  cases c with
  | other t len => simp [supported, TYPEOF] at hs
  | _ =>
    simp only [SEXP.length] at hk
    simp [SEXP.cell, List.getElem?_eq_getElem hk]

theorem column_result_typeof (c : SEXP) (rows : List Int) (vec : SEXP)
    (h : column_result c rows = .ok vec) : TYPEOF vec = TYPEOF c := by
  cases c with
  | other t len =>
    simp only [column_result] at h
    split at h
    · simp only [Except.ok.injEq] at h; subst h; rfl
    · cases h
  | real v =>
    simp only [column_result] at h
    cases hg : gather NA_REAL v rows with
    | error e => rw [hg] at h; cases h
    | ok vs => rw [hg] at h; simp only [Except.map, Except.ok.injEq] at h; subst h; rfl
  | int v =>
    simp only [column_result] at h
    cases hg : gather NA_INTEGER v rows with
    | error e => rw [hg] at h; cases h
    | ok vs => rw [hg] at h; simp only [Except.map, Except.ok.injEq] at h; subst h; rfl
  | lgl v =>
    simp only [column_result] at h
    cases hg : gather NA_INTEGER v rows with
    | error e => rw [hg] at h; cases h
    | ok vs => rw [hg] at h; simp only [Except.map, Except.ok.injEq] at h; subst h; rfl
  | str v =>
    simp only [column_result] at h
    cases hg : gather NA_STRING v rows with
    | error e => rw [hg] at h; cases h
    | ok vs => rw [hg] at h; simp only [Except.map, Except.ok.injEq] at h; subst h; rfl
  | list v =>
    simp only [column_result] at h
    cases hg : gather R_NilValue v rows with
    | error e => rw [hg] at h; cases h
    | ok vs => rw [hg] at h; simp only [Except.map, Except.ok.injEq] at h; subst h; rfl

theorem outer_loop_typeof (rows : List Int) :
    ∀ (cols out : List SEXP), outer_loop rows cols = .ok out →
      out.map TYPEOF = cols.map TYPEOF := by
  intro cols
  induction cols with
  | nil => intro out h; simp only [outer_loop, Except.ok.injEq] at h; subst h; rfl
  | cons c rest ih =>
    intro out h
    rw [outer_loop_cons] at h
    cases hc : column_result c rows with
    | error e => rw [hc] at h; cases h
    | ok vec =>
      rw [hc] at h
      cases hr : outer_loop rows rest with
      | error e => rw [hr] at h; cases h
      | ok out1 =>
        rw [hr] at h
        simp only [Except.ok.injEq] at h
        subst h
        simp [column_result_typeof c rows vec hc, ih out1 hr]

theorem subset_body_schema (x : DataFrame) (rows : List Int) (out : DataFrame)
    (h : subset_body x rows = .ok out) : schema out = schema x := by
  unfold subset_body at h
  cases ho : outer_loop rows x.columns with
  | error e => rw [ho] at h; cases h
  | ok cols =>
    rw [ho] at h
    simp only [Except.ok.injEq] at h
    subst h
    have ht := outer_loop_typeof rows x.columns cols ho
    have hlen : cols.length = x.columns.length := by
      have := congrArg List.length ht
      simpa using this
    simp [schema, DataFrame.ncol, ht, hlen]

theorem range_for_decrement_eq (rows : List Int) : range_for_decrement rows = rows := by
  unfold range_for_decrement
  generalize rows = v at *
  suffices h : ∀ (l acc : List Int),
      l.foldl (fun (v : List Int) (i : Int) => let _i := i - 1; v) acc = acc from h _ _
  intro l
  induction l with
  | nil => intro acc; rfl
  | cons a t ih => intro acc; simp only [List.foldl_cons]; exact ih acc

theorem extract_loop_eq (cols : List SEXP) (df_names : List String) :
    ∀ (k i : Nat), i + k ≤ cols.length → i + k ≤ df_names.length →
      extract_loop cols df_names k i
        = .ok ((cols.drop i).take k, (df_names.drop i).take k) := by
  intro k
  induction k with
  | zero => intro i _ _; simp [extract_loop]
  | succ k ih =>
    intro i h1 h2
    have hc : i < cols.length := by omega
    have hn : i < df_names.length := by omega
    have e1 : read_at cols (i : Int) = .ok cols[i] := by
      simp [read_at, List.getElem?_eq_getElem hc]
    have e2 : read_at df_names (i : Int) = .ok df_names[i] := by
      simp [read_at, List.getElem?_eq_getElem hn]
    have d1 : cols.drop i = cols[i] :: cols.drop (i + 1) := List.drop_eq_getElem_cons hc
    have d2 : df_names.drop i = df_names[i] :: df_names.drop (i + 1) :=
      List.drop_eq_getElem_cons hn
    simp only [extract_loop, e1, e2, ih (i + 1) (by omega) (by omega), d1, d2, List.take_succ_cons]

theorem set_cell_sentinel (element vec : SEXP) (k : Nat)
    (hs : supported (TYPEOF element) = true) (ht : TYPEOF vec = TYPEOF element)
    (hk : k < vec.length) :
    ∃ vec1, set_cell element vec k NA_INTEGER = .ok vec1 ∧
      vec1.cell k = na_cell (TYPEOF element) ∧
      ∀ m, m ≠ k → vec1.cell m = vec.cell m := by
  cases element with
  | other t len => simp [supported, TYPEOF] at hs
  | real src =>
    cases vec with
    | real out =>
      simp only [SEXP.length] at hk
      refine ⟨.real (out.set k NA_REAL), by simp [set_cell], ?_, ?_⟩
      · simp [SEXP.cell, na_cell, TYPEOF, hk]
      · intro m hm; simp [SEXP.cell, List.getElem?_set_ne (Ne.symm hm)]
    | _ => simp [TYPEOF] at ht
  | int src =>
    cases vec with
    | int out =>
      simp only [SEXP.length] at hk
      refine ⟨.int (out.set k NA_INTEGER), by simp [set_cell], ?_, ?_⟩
      · simp [SEXP.cell, na_cell, TYPEOF, hk]
      · intro m hm; simp [SEXP.cell, List.getElem?_set_ne (Ne.symm hm)]
    | _ => simp [TYPEOF] at ht
  | lgl src =>
    cases vec with
    | lgl out =>
      simp only [SEXP.length] at hk
      refine ⟨.lgl (out.set k NA_INTEGER), by simp [set_cell], ?_, ?_⟩
      · simp [SEXP.cell, na_cell, TYPEOF, hk, na_logical_eq]
      · intro m hm; simp [SEXP.cell, List.getElem?_set_ne (Ne.symm hm)]
    | _ => simp [TYPEOF] at ht
  | str src =>
    cases vec with
    | str out =>
      simp only [SEXP.length] at hk
      refine ⟨.str (out.set k NA_STRING), by simp [set_cell], ?_, ?_⟩
      · simp [SEXP.cell, na_cell, TYPEOF, hk]
      · intro m hm; simp [SEXP.cell, List.getElem?_set_ne (Ne.symm hm)]
    | _ => simp [TYPEOF] at ht
  | list src =>
    cases vec with
    | list out =>
      simp only [SEXP.length] at hk
      refine ⟨.list (out.set k R_NilValue), by simp [set_cell], ?_, ?_⟩
      · simp [SEXP.cell, na_cell, TYPEOF, hk]
      · intro m hm; simp [SEXP.cell, List.getElem?_set_ne (Ne.symm hm)]
    | _ => simp [TYPEOF] at ht

theorem gather_getElem {α : Type} (na : α) (src : List α) :
    ∀ (rows : List Int) (vs : List α), gather na src rows = .ok vs →
      ∀ (i : Nat) (r : Int), rows[i]? = some r →
        ∃ v, gather_cell na src r = .ok v ∧ vs[i]? = some v := by
  intro rows
  induction rows with
  | nil => intro vs _ i r hr; simp at hr
  | cons row rest ih =>
    intro vs h i r hr
    simp only [gather] at h
    cases hc : gather_cell na src row with
    | error e => rw [hc] at h; cases h
    | ok v0 =>
      rw [hc] at h
      cases hg : gather na src rest with
      | error e => rw [hg] at h; cases h
      | ok ws =>
        rw [hg] at h
        simp only [Except.ok.injEq] at h
        subst h
        cases i with
        | zero =>
          simp only [List.getElem?_cons_zero, Option.some.injEq] at hr
          subst hr
          exact ⟨v0, hc, by simp⟩
        | succ k =>
          simp only [List.getElem?_cons_succ] at hr
          obtain ⟨v, h1, h2⟩ := ih ws hg k r hr
          exact ⟨v, h1, by simpa using h2⟩

theorem gather_cell_ok {α : Type} (na : α) (src : List α) (r : Int) (v : α)
    (h : gather_cell na src r = .ok v) :
    (r = NA_INTEGER → v = na) ∧ (r ≠ NA_INTEGER → src[r.toNat]? = some v) := by
  unfold gather_cell at h
  constructor
  · intro hr
    rw [if_pos hr] at h
    simp only [Except.ok.injEq] at h
    exact h.symm
  · intro hr
    rw [if_neg hr] at h
    unfold read_at at h
    split at h
    · split at h
      · rename_i w hw
        simp only [Except.ok.injEq] at h
        subst h
        simpa using hw
      · cases h
    · cases h

theorem column_result_cell (c vec : SEXP) (rows : List Int)
    (h : column_result c rows = .ok vec) (hs : supported (TYPEOF c) = true)
    (i : Nat) (r : Int) (hr : rows[i]? = some r) :
    (r = NA_INTEGER → vec.cell i = na_cell (TYPEOF c)) ∧
    (r ≠ NA_INTEGER → vec.cell i = c.cell r.toNat) := by
  cases c with
  | other t len => simp [supported, TYPEOF] at hs
  | real src =>
    simp only [column_result] at h
    cases hg : gather NA_REAL src rows with
    | error e => rw [hg] at h; cases h
    | ok vs =>
      rw [hg] at h
      simp only [Except.map, Except.ok.injEq] at h
      subst h
      obtain ⟨v, h1, h2⟩ := gather_getElem NA_REAL src rows vs hg i r hr
      obtain ⟨h3, h4⟩ := gather_cell_ok NA_REAL src r v h1
      constructor
      · intro hna; simp [SEXP.cell, h2, h3 hna, na_cell, TYPEOF]
      · intro hna; simp [SEXP.cell, h2, h4 hna]
  | int src =>
    simp only [column_result] at h
    cases hg : gather NA_INTEGER src rows with
    | error e => rw [hg] at h; cases h
    | ok vs =>
      rw [hg] at h
      simp only [Except.map, Except.ok.injEq] at h
      subst h
      obtain ⟨v, h1, h2⟩ := gather_getElem NA_INTEGER src rows vs hg i r hr
      obtain ⟨h3, h4⟩ := gather_cell_ok NA_INTEGER src r v h1
      constructor
      · intro hna; simp [SEXP.cell, h2, h3 hna, na_cell, TYPEOF]
      · intro hna; simp [SEXP.cell, h2, h4 hna]
  | lgl src =>
    simp only [column_result] at h
    cases hg : gather NA_INTEGER src rows with
    | error e => rw [hg] at h; cases h
    | ok vs =>
      rw [hg] at h
      simp only [Except.map, Except.ok.injEq] at h
      subst h
      obtain ⟨v, h1, h2⟩ := gather_getElem NA_INTEGER src rows vs hg i r hr
      obtain ⟨h3, h4⟩ := gather_cell_ok NA_INTEGER src r v h1
      constructor
      · intro hna; simp [SEXP.cell, h2, h3 hna, na_cell, TYPEOF, na_logical_eq]
      · intro hna; simp [SEXP.cell, h2, h4 hna]
  | str src =>
    simp only [column_result] at h
    cases hg : gather NA_STRING src rows with
    | error e => rw [hg] at h; cases h
    | ok vs =>
      rw [hg] at h
      simp only [Except.map, Except.ok.injEq] at h
      subst h
      obtain ⟨v, h1, h2⟩ := gather_getElem NA_STRING src rows vs hg i r hr
      obtain ⟨h3, h4⟩ := gather_cell_ok NA_STRING src r v h1
      constructor
      · intro hna; simp [SEXP.cell, h2, h3 hna, na_cell, TYPEOF]
      · intro hna; simp [SEXP.cell, h2, h4 hna]
  | list src =>
    simp only [column_result] at h
    cases hg : gather R_NilValue src rows with
    | error e => rw [hg] at h; cases h
    | ok vs =>
      rw [hg] at h
      simp only [Except.map, Except.ok.injEq] at h
      subst h
      obtain ⟨v, h1, h2⟩ := gather_getElem R_NilValue src rows vs hg i r hr
      obtain ⟨h3, h4⟩ := gather_cell_ok R_NilValue src r v h1
      constructor
      · intro hna; simp [SEXP.cell, h2, h3 hna, na_cell, TYPEOF]
      · intro hna; simp [SEXP.cell, h2, h4 hna]

theorem outer_loop_getElem (rows : List Int) :
    ∀ (cols out : List SEXP), outer_loop rows cols = .ok out →
      ∀ (j : Nat) (c : SEXP), cols[j]? = some c →
        ∃ vec, out[j]? = some vec ∧ column_result c rows = .ok vec := by
  intro cols
  induction cols with
  | nil => intro out _ j c hc; simp at hc
  | cons c0 rest ih =>
    intro out h j c hc
    rw [outer_loop_cons] at h
    cases h0 : column_result c0 rows with
    | error e => rw [h0] at h; cases h
    | ok vec0 =>
      rw [h0] at h
      cases hr : outer_loop rows rest with
      | error e => rw [hr] at h; cases h
      | ok out1 =>
        rw [hr] at h
        simp only [Except.ok.injEq] at h
        subst h
        cases j with
        | zero =>
          simp only [List.getElem?_cons_zero, Option.some.injEq] at hc
          subst hc
          exact ⟨vec0, by simp, h0⟩
        | succ k =>
          simp only [List.getElem?_cons_succ] at hc
          obtain ⟨vec, h1, h2⟩ := ih out1 hr k c hc
          exact ⟨vec, by simpa using h1, h2⟩

theorem subset_body_returned_cell (x : DataFrame) (hs : all_supported x)
    (sel : List Int) (out : DataFrame) (h : subset_body x sel = .ok out)
    (j i : Nat) (r : Int) (c : SEXP)
    (hc : x.columns.get? j = some c) (hr : sel.get? i = some r) :
    (r = NA_INTEGER → out.cell j i = na_cell (TYPEOF c)) ∧
    (r ≠ NA_INTEGER → out.cell j i = x.cell j r.toNat) := by
  unfold subset_body at h
  cases ho : outer_loop sel x.columns with
  | error e => rw [ho] at h; cases h
  | ok cols =>
    rw [ho] at h
    simp only [Except.ok.injEq] at h
    subst h
    have hc2 : x.columns[j]? = some c := by simpa using hc
    have hr2 : sel[i]? = some r := by simpa using hr
    obtain ⟨vec, h1, h2⟩ := outer_loop_getElem sel x.columns cols ho j c hc2
    have hcell := column_result_cell c vec sel h2 (hs c (List.getElem?_mem hc2)) i r hr2
    simp only [DataFrame.cell, List.get?_eq_getElem?, h1, hc2, Option.some_bind]
    exact hcell

/-! ## The claims on `valr_utils.cpp` -/

/-- C1 as stated fails: every column of `table_cplx` has `nrow = 2` cells and
the selection `0` is a valid 0-based position, yet both overloads of
`subset_dataframe` and of `rowwise_subset_df` stop with "Incompatible column
type detected" on the complex column and return no table; so does the
selection `1, 0`. -/
theorem subset_dataframe_unsupported_column_stops :
    all_length table_cplx table_cplx.nrow ∧
    (∀ r ∈ [(0 : Int)], 0 ≤ r ∧ r < (table_cplx.nrow : Int)) ∧
    subset_dataframe_iv table_cplx [0]
      = .error (.stop "Incompatible column type detected") ∧
    subset_dataframe_sv table_cplx [0]
      = .error (.stop "Incompatible column type detected") ∧
    rowwise_subset_df_iv table_cplx [0] false
      = .error (.stop "Incompatible column type detected") ∧
    rowwise_subset_df_sv table_cplx [0] false
      = .error (.stop "Incompatible column type detected") ∧
    subset_dataframe_iv table_cplx [1, 0]
      = .error (.stop "Incompatible column type detected") ∧
    subset_dataframe_sv table_cplx [1, 0]
      = .error (.stop "Incompatible column type detected") ∧
    (∀ out, subset_dataframe_iv table_cplx [0] ≠ .ok out) ∧
    (∀ out, subset_dataframe_sv table_cplx [0] ≠ .ok out) := by
  refine ⟨by decide, by decide, by decide, by decide, by decide, by decide, by decide,
    by decide, ?_, ?_⟩
  · intro out h
    have he : subset_dataframe_iv table_cplx [0]
        = .error (.stop "Incompatible column type detected") := by decide
    rw [he] at h
    cases h
  · intro out h
    have he : subset_dataframe_sv table_cplx [0]
        = .error (.stop "Incompatible column type detected") := by decide
    rw [he] at h
    cases h

/-- C1 amended: on a table whose columns have the handled types (real,
integer, logical, text, list) and `nrow` cells each,
and a selection of valid 0-based positions, both overloads of
`subset_dataframe` (and of `rowwise_subset_df` with `r_index = false`) return
a table with `length (row_indices)` rows whose cell at column `j`, row `i` is
the cell of column `j` of `x` at row `row_indices[i]`; that cell exists, so a
missing value of `x` is carried over as it is. -/
theorem subset_dataframe_selection_order (x : DataFrame) (row_indices : List Int)
    (hs : all_supported x) (hl : all_length x x.nrow)
    (hv : ∀ r ∈ row_indices, 0 ≤ r ∧ r < (x.nrow : Int)) :
    ∃ out, subset_dataframe_iv x row_indices = .ok out ∧
      subset_dataframe_sv x row_indices = .ok out ∧
      rowwise_subset_df_iv x row_indices false = .ok out ∧
      rowwise_subset_df_sv x row_indices false = .ok out ∧
      out.nrow = row_indices.length ∧
      out.ncol = x.ncol ∧
      (∀ c ∈ out.columns, c.length = row_indices.length) ∧
      ∀ j i r, j < x.ncol → row_indices.get? i = some r →
        out.cell j i = x.cell j r.toNat ∧ (out.cell j i).isSome = true := by
  have hvalid : valid_rows x.nrow row_indices := fun r hr => Or.inr (hv r hr)
  have hb := subset_body_valid x row_indices x.nrow hs hl hvalid
  refine ⟨_, hb, hb, hb, hb, rfl, by simp [DataFrame.ncol], ?_, ?_⟩
  · intro c hc
    obtain ⟨d, _, hd⟩ := List.mem_map.mp hc
    rw [← hd]
    exact pick_column_length row_indices d
  · intro j i r hj hr
    have hj2 : j < x.columns.length := hj
    have hc : x.columns.get? j = some x.columns[j] := by
      simp [List.getElem?_eq_getElem hj2]
    have hcell := subset_body_cell x row_indices x.nrow hs hl hvalid _ hb j i r _ hc hr
    have hrm : r ∈ row_indices := List.get?_mem hr
    have hne : r ≠ NA_INTEGER := by
      intro h
      have h0 := (hv r hrm).1
      rw [h] at h0
      exact absurd h0 (by decide)
    rw [if_neg hne] at hcell
    refine ⟨hcell, ?_⟩
    rw [hcell]
    have hmem : x.columns[j] ∈ x.columns := List.getElem_mem hj2
    have hk : r.toNat < (x.columns[j]).length := by
      rw [hl _ hmem]
      have := hv r hrm
      omega
    have := cell_in_bounds x.columns[j] r.toNat (hs _ hmem) hk
    simpa [DataFrame.cell, List.getElem?_eq_getElem hj2] using this

/-- Witness of the amended C1 on `table_five` with the selection `1, 0, 1`. -/
theorem subset_dataframe_selection_order_witness :
    ∃ out, subset_dataframe_iv table_five [1, 0, 1] = .ok out ∧
      subset_dataframe_sv table_five [1, 0, 1] = .ok out ∧
      rowwise_subset_df_iv table_five [1, 0, 1] false = .ok out ∧
      rowwise_subset_df_sv table_five [1, 0, 1] false = .ok out ∧
      out.nrow = [(1 : Int), 0, 1].length ∧
      out.ncol = table_five.ncol ∧
      (∀ c ∈ out.columns, c.length = [(1 : Int), 0, 1].length) ∧
      ∀ j i r, j < table_five.ncol → [(1 : Int), 0, 1].get? i = some r →
        out.cell j i = table_five.cell j r.toNat ∧ (out.cell j i).isSome = true :=
  subset_dataframe_selection_order table_five [1, 0, 1] (by decide) (by decide) (by decide)

/-- C2: on a table whose columns have the handled types and `n` cells each,
and a selection whose entries are the sentinel `NA_INTEGER` or positions
below `n`, `rowwise_subset_df` returns a table; at every output row whose
selected position is the sentinel each column holds the missing value of its
type, and every other output row holds the selected source row. Whenever a
table is returned, for any selection at all, its rows at sentinel positions
hold the missing values. The step of the loop that handles a sentinel entry
succeeds whatever the rest of the selection is, writes the missing value at
its own row and leaves every other row of the output column as it was. -/
theorem rowwise_subset_df_sentinel_rows (x : DataFrame) (row_indices : List Int) (n : Nat)
    (hs : all_supported x) (hl : all_length x n) (hv : valid_rows n row_indices) :
    (∃ out, rowwise_subset_df_iv x row_indices false = .ok out ∧
      rowwise_subset_df_sv x row_indices false = .ok out ∧
      ∀ j i r c, x.columns.get? j = some c → row_indices.get? i = some r →
        (r = NA_INTEGER →
          out.cell j i = na_cell (TYPEOF c) ∧ (na_cell (TYPEOF c)).isSome = true) ∧
        (r ≠ NA_INTEGER → out.cell j i = x.cell j r.toNat)) ∧
    (∀ (sel : List Int) (out : DataFrame),
      (rowwise_subset_df_iv x sel false = .ok out ∨
        rowwise_subset_df_sv x sel false = .ok out) →
      ∀ j i c, x.columns.get? j = some c → sel.get? i = some NA_INTEGER →
        out.cell j i = na_cell (TYPEOF c)) ∧
    (∀ (element vec : SEXP) (k : Nat), element ∈ x.columns →
      TYPEOF vec = TYPEOF element → k < vec.length →
      ∃ vec1, set_cell element vec k NA_INTEGER = .ok vec1 ∧
        vec1.cell k = na_cell (TYPEOF element) ∧
        ∀ m, m ≠ k → vec1.cell m = vec.cell m) := by
  have hb := subset_body_valid x row_indices n hs hl hv
  refine ⟨⟨_, hb, hb, ?_⟩, ?_, ?_⟩
  rotate_left
  · intro sel out h j i c hc hr
    have h2 : subset_body x sel = .ok out := by
      rcases h with h | h
      · exact h
      · exact h
    exact (subset_body_returned_cell x hs sel out h2 j i NA_INTEGER c hc hr).1 rfl
  · intro element vec k hmem ht hk
    exact set_cell_sentinel element vec k (hs element hmem) ht hk
  · intro j i r c hc hr
    have hcell := subset_body_cell x row_indices n hs hl hv _ hb j i r c hc hr
    have hmem : c ∈ x.columns := List.get?_mem hc
    constructor
    · intro hna
      rw [if_pos hna] at hcell
      exact ⟨hcell, na_cell_supported _ (hs c hmem)⟩
    · intro hna
      rw [if_neg hna] at hcell
      exact hcell

/-- Witness of C2 on `table_five` with a selection holding the sentinel. -/
theorem rowwise_subset_df_sentinel_rows_witness :
    (∃ out, rowwise_subset_df_iv table_five [1, NA_INTEGER, 0] false = .ok out ∧
      rowwise_subset_df_sv table_five [1, NA_INTEGER, 0] false = .ok out ∧
      ∀ j i r c, table_five.columns.get? j = some c →
        [1, NA_INTEGER, 0].get? i = some r →
        (r = NA_INTEGER →
          out.cell j i = na_cell (TYPEOF c) ∧ (na_cell (TYPEOF c)).isSome = true) ∧
        (r ≠ NA_INTEGER → out.cell j i = table_five.cell j r.toNat)) ∧
    (∀ (sel : List Int) (out : DataFrame),
      (rowwise_subset_df_iv table_five sel false = .ok out ∨
        rowwise_subset_df_sv table_five sel false = .ok out) →
      ∀ j i c, table_five.columns.get? j = some c → sel.get? i = some NA_INTEGER →
        out.cell j i = na_cell (TYPEOF c)) ∧
    (∀ (element vec : SEXP) (k : Nat), element ∈ table_five.columns →
      TYPEOF vec = TYPEOF element → k < vec.length →
      ∃ vec1, set_cell element vec k NA_INTEGER = .ok vec1 ∧
        vec1.cell k = na_cell (TYPEOF element) ∧
        ∀ m, m ≠ k → vec1.cell m = vec.cell m) :=
  rowwise_subset_df_sentinel_rows table_five [1, NA_INTEGER, 0] 2
    (by decide) (by decide) (by decide)

/-- C3: on a table whose columns have the handled types and `n` cells each,
and a selection whose entries are the sentinel or positions below `n` (the
empty selection included), `rowwise_subset_df` returns a table with the
column names, the column count and the column types of `x`. Whenever either
overload returns a table at all, for any selection and either value of
`r_index`, that table has the schema of `x`. -/
theorem rowwise_subset_df_schema (x : DataFrame) (row_indices : List Int) (n : Nat)
    (hs : all_supported x) (hl : all_length x n) (hv : valid_rows n row_indices) :
    (∃ out, rowwise_subset_df_iv x row_indices false = .ok out ∧
      rowwise_subset_df_sv x row_indices false = .ok out ∧
      out.ncol = x.ncol ∧ out.names = x.names ∧
      out.columns.map TYPEOF = x.columns.map TYPEOF) ∧
    (∃ out, rowwise_subset_df_iv x [] false = .ok out ∧
      rowwise_subset_df_sv x [] false = .ok out ∧ schema out = schema x) ∧
    (∀ (sel : List Int) (r_index : Bool) (out : DataFrame),
      (rowwise_subset_df_iv x sel r_index = .ok out ∨
        rowwise_subset_df_sv x sel r_index = .ok out) →
      schema out = schema x) := by
  have hb := subset_body_valid x row_indices n hs hl hv
  have he := subset_body_valid x [] n hs hl (by intro r hr; cases hr)
  refine ⟨⟨_, hb, hb, ?_⟩, ⟨_, he, he, ?_⟩, ?_⟩
  · have h := subset_body_schema x row_indices _ hb
    have h3 := congrArg (fun p => p.2.2) h
    exact ⟨by simp [DataFrame.ncol], rfl, by simpa [schema] using h3⟩
  · exact subset_body_schema x [] _ he
  · intro sel r_index out h
    rcases h with h | h
    · exact subset_body_schema x _ out h
    · exact subset_body_schema x _ out h

/-- Witness of C3 on `table_five`. -/
theorem rowwise_subset_df_schema_witness :
    (∃ out, rowwise_subset_df_iv table_five [0, NA_INTEGER] false = .ok out ∧
      rowwise_subset_df_sv table_five [0, NA_INTEGER] false = .ok out ∧
      out.ncol = table_five.ncol ∧ out.names = table_five.names ∧
      out.columns.map TYPEOF = table_five.columns.map TYPEOF) ∧
    (∃ out, rowwise_subset_df_iv table_five [] false = .ok out ∧
      rowwise_subset_df_sv table_five [] false = .ok out ∧
      schema out = schema table_five) ∧
    (∀ (sel : List Int) (r_index : Bool) (out : DataFrame),
      (rowwise_subset_df_iv table_five sel r_index = .ok out ∨
        rowwise_subset_df_sv table_five sel r_index = .ok out) →
      schema out = schema table_five) :=
  rowwise_subset_df_schema table_five [0, NA_INTEGER] 2 (by decide) (by decide) (by decide)

/-- C4 as stated fails: `table_cplx` has a complex column, yet with the empty
selection both overloads return a table, the complex column kept with no
cell, since the type switch sits inside the loop over the rows. -/
theorem rowwise_subset_df_empty_selection_no_error :
    (∃ c ∈ table_cplx.columns, supported (TYPEOF c) = false) ∧
    rowwise_subset_df_iv table_cplx [] false
      = .ok { names := ["start", "z"], columns := [.int [], .other .CPLXSXP 0],
              row_names := 0, klass := ["data.frame"], attrs := [] } ∧
    rowwise_subset_df_sv table_cplx [] false
      = .ok { names := ["start", "z"], columns := [.int [], .other .CPLXSXP 0],
              row_names := 0, klass := ["data.frame"], attrs := [] } ∧
    rowwise_subset_df_iv table_cplx [] false
      ≠ .error (.stop "Incompatible column type detected") := by
  decide

/-- C4 amended: on a table whose columns have `n` cells each and a selection
whose entries are the sentinel or positions below `n`, `rowwise_subset_df`
fails with "Incompatible column type detected" exactly when the selection is
not empty and `x` has a column outside the five handled types; with the empty
selection it returns a table with the schema of `x` and no row. -/
theorem rowwise_subset_df_incompatible_iff (x : DataFrame) (row_indices : List Int)
    (n : Nat) (hl : all_length x n) (hv : valid_rows n row_indices) :
    (rowwise_subset_df_iv x row_indices false
        = .error (.stop "Incompatible column type detected") ↔
      (row_indices ≠ [] ∧ ∃ c ∈ x.columns, supported (TYPEOF c) = false)) ∧
    (rowwise_subset_df_sv x row_indices false
        = .error (.stop "Incompatible column type detected") ↔
      (row_indices ≠ [] ∧ ∃ c ∈ x.columns, supported (TYPEOF c) = false)) ∧
    (∀ msg, rowwise_subset_df_iv x row_indices false = .error (.stop msg) →
      msg = "Incompatible column type detected") ∧
    (∃ out, rowwise_subset_df_iv x [] false = .ok out ∧
      rowwise_subset_df_sv x [] false = .ok out ∧
      out.nrow = 0 ∧ schema out = schema x) := by
  have key : subset_body x row_indices
        = .error (.stop "Incompatible column type detected") ↔
      (row_indices ≠ [] ∧ ∃ c ∈ x.columns, supported (TYPEOF c) = false) := by
    constructor
    · intro h
      unfold subset_body at h
      cases ho : outer_loop row_indices x.columns with
      | ok cols => rw [ho] at h; cases h
      | error e =>
        rw [ho] at h
        simp only [Except.error.injEq] at h
        subst h
        obtain ⟨h1, _, h3⟩ := outer_loop_stop row_indices _ x.columns ho
        exact ⟨h1, h3⟩
    · intro h
      unfold subset_body
      rw [outer_loop_unsupported n row_indices hv h.1 x.columns hl h.2]
  have hempty : subset_body x []
      = .ok { names := x.names
              columns := x.columns.map (pick_column [])
              row_names := 0
              klass := x.klass
              attrs := x.attrs } := by
    simp only [subset_body, outer_loop_empty]
    rfl
  refine ⟨key, key, ?_, ⟨_, hempty, hempty, rfl, subset_body_schema x [] _ hempty⟩⟩
  intro msg h
  have h2 : subset_body x row_indices = .error (.stop msg) := h
  unfold subset_body at h2
  cases ho : outer_loop row_indices x.columns with
  | ok cols => rw [ho] at h2; cases h2
  | error e =>
    rw [ho] at h2
    simp only [Except.error.injEq] at h2
    subst h2
    exact (outer_loop_stop row_indices _ x.columns ho).2.1

/-- Witness of the amended C4 on `table_cplx` with the selection `1, 0`. -/
theorem rowwise_subset_df_incompatible_iff_witness :
    (rowwise_subset_df_iv table_cplx [1, 0] false
        = .error (.stop "Incompatible column type detected") ↔
      ([(1 : Int), 0] ≠ [] ∧ ∃ c ∈ table_cplx.columns, supported (TYPEOF c) = false)) ∧
    (rowwise_subset_df_sv table_cplx [1, 0] false
        = .error (.stop "Incompatible column type detected") ↔
      ([(1 : Int), 0] ≠ [] ∧ ∃ c ∈ table_cplx.columns, supported (TYPEOF c) = false)) ∧
    (∀ msg, rowwise_subset_df_iv table_cplx [1, 0] false = .error (.stop msg) →
      msg = "Incompatible column type detected") ∧
    (∃ out, rowwise_subset_df_iv table_cplx [] false = .ok out ∧
      rowwise_subset_df_sv table_cplx [] false = .ok out ∧
      out.nrow = 0 ∧ schema out = schema table_cplx) :=
  rowwise_subset_df_incompatible_iff table_cplx [1, 0] 2 (by decide) (by decide)

/-- C7: on a table whose columns have the handled types and `n` cells each,
and a selection whose entries are the sentinel or positions in `[0, n)`,
both overloads of `rowwise_subset_df` return a table: no read leaves the
bounds of a column and no error is raised. -/
theorem rowwise_subset_df_no_error (x : DataFrame) (row_indices : List Int) (n : Nat)
    (hs : all_supported x) (hl : all_length x n) (hv : valid_rows n row_indices) :
    (∃ out, rowwise_subset_df_iv x row_indices false = .ok out ∧
      rowwise_subset_df_sv x row_indices false = .ok out) ∧
    (∀ e, rowwise_subset_df_iv x row_indices false ≠ .error e ∧
      rowwise_subset_df_sv x row_indices false ≠ .error e) ∧
    (∀ c ∈ x.columns, ∀ r ∈ row_indices, r ≠ NA_INTEGER →
      ∃ v, c.cell r.toNat = some v) := by
  have hb := subset_body_valid x row_indices n hs hl hv
  refine ⟨⟨_, hb, hb⟩, ?_, ?_⟩
  · intro e
    have h1 : rowwise_subset_df_iv x row_indices false = subset_body x row_indices := rfl
    have h2 : rowwise_subset_df_sv x row_indices false = subset_body x row_indices := rfl
    rw [h1, h2, hb]
    constructor
    · intro h; cases h
    · intro h; cases h
  · intro c hc r hr hna
    have hb2 : 0 ≤ r ∧ r < (n : Int) := by
      rcases hv r hr with h | h
      · exact absurd h hna
      · exact h
    have hk : r.toNat < c.length := by rw [hl c hc]; omega
    exact Option.isSome_iff_exists.mp (cell_in_bounds c r.toNat (hs c hc) hk)

/-- Witness of C7 on `table_five`. -/
theorem rowwise_subset_df_no_error_witness :
    (∃ out, rowwise_subset_df_iv table_five [NA_INTEGER, 1, 1, 0] false = .ok out ∧
      rowwise_subset_df_sv table_five [NA_INTEGER, 1, 1, 0] false = .ok out) ∧
    (∀ e, rowwise_subset_df_iv table_five [NA_INTEGER, 1, 1, 0] false ≠ .error e ∧
      rowwise_subset_df_sv table_five [NA_INTEGER, 1, 1, 0] false ≠ .error e) ∧
    (∀ c ∈ table_five.columns, ∀ r ∈ [NA_INTEGER, 1, 1, 0], r ≠ NA_INTEGER →
      ∃ v, c.cell r.toNat = some v) :=
  rowwise_subset_df_no_error table_five [NA_INTEGER, 1, 1, 0] 2
    (by decide) (by decide) (by decide)

/-- C8: on a table with at least one column and one name per column,
`extract_groups` returns the table made of the columns of `x` but the last,
in their order, under their names and with their contents, with the row
count of `x`. -/
theorem extract_groups_drops_last_column (x : DataFrame)
    (hc : 1 ≤ x.ncol) (hn : x.names.length = x.ncol) :
    ∃ out, extract_groups x = .ok out ∧
      out.columns = x.columns.dropLast ∧
      out.names = x.names.dropLast ∧
      out.ncol + 1 = x.ncol ∧
      out.nrow = x.nrow ∧
      (∀ j, j + 1 < x.ncol →
        out.columns.get? j = x.columns.get? j ∧ out.names.get? j = x.names.get? j) := by
  have hc2 : 1 ≤ x.columns.length := hc
  have hn2 : x.names.length = x.columns.length := hn
  have hint : ¬ ((x.columns.length : Int) - 1 < 0) := by omega
  have htn : ((x.columns.length : Int) - 1).toNat = x.columns.length - 1 := by omega
  have hloop := extract_loop_eq x.columns x.names (x.columns.length - 1) 0
    (by omega) (by omega)
  refine ⟨{ names := x.names.dropLast, columns := x.columns.dropLast, row_names := x.nrow,
            klass := ["data.frame"], attrs := [] }, ?_, rfl, rfl, ?_, rfl, ?_⟩
  · simp only [extract_groups, DataFrame.ncol, hint, if_false, htn, hloop, List.drop_zero,
      set_rownames]
    simp [List.dropLast_eq_take, hn2]
  · simp only [DataFrame.ncol, List.length_dropLast]
    omega
  · intro j hj
    have hj2 : j + 1 < x.columns.length := hj
    simp only [List.dropLast_eq_take, List.get?_eq_getElem?]
    constructor
    · rw [List.getElem?_take_of_lt (by omega)]
    · rw [List.getElem?_take_of_lt (by omega)]

/-- Witness of C8 on `table_groups`. -/
theorem extract_groups_drops_last_column_witness :
    ∃ out, extract_groups table_groups = .ok out ∧
      out.columns = table_groups.columns.dropLast ∧
      out.names = table_groups.names.dropLast ∧
      out.ncol + 1 = table_groups.ncol ∧
      out.nrow = table_groups.nrow ∧
      (∀ j, j + 1 < table_groups.ncol →
        out.columns.get? j = table_groups.columns.get? j ∧
          out.names.get? j = table_groups.names.get? j) :=
  extract_groups_drops_last_column table_groups (by decide) (by decide)

/-- C9 fails on the `std::vector<int>` overload: with `r_index = true` and the
1-based selection `1, 2` on the two-row `table_int`, the `IntegerVector`
overload returns rows 0 and 1, as the call with `r_index = false` on `0, 1`
does, while the `std::vector<int>` overload uses `1, 2` as they are and reads
past the end of the column; on the selection `1` alone it returns row 1
where row 0 is meant. -/
theorem rowwise_subset_df_sv_ignores_r_index :
    rowwise_subset_df_iv table_int [1, 2] true
      = rowwise_subset_df_iv table_int [0, 1] false ∧
    rowwise_subset_df_iv table_int [1, 2] true
      = .ok { names := ["start"], columns := [.int [10, 20]], row_names := 2,
              klass := ["data.frame"], attrs := [] } ∧
    rowwise_subset_df_sv table_int [0, 1] false
      = .ok { names := ["start"], columns := [.int [10, 20]], row_names := 2,
              klass := ["data.frame"], attrs := [] } ∧
    rowwise_subset_df_sv table_int [1, 2] true = .error .out_of_bounds ∧
    rowwise_subset_df_sv table_int [1] true
      = .ok { names := ["start"], columns := [.int [20]], row_names := 1,
              klass := ["data.frame"], attrs := [] } ∧
    rowwise_subset_df_sv table_int [0] false
      = .ok { names := ["start"], columns := [.int [10]], row_names := 1,
              klass := ["data.frame"], attrs := [] } := by
  decide

/-- C10: the two overloads of `subset_dataframe` return the same result on
every table and every sequence of row positions, the sentinel included: the
same table when they return one, the same error otherwise. -/
theorem subset_dataframe_overloads_agree (df : DataFrame) (indices : List Int) :
    subset_dataframe_sv df indices = subset_dataframe_iv df indices ∧
    (∀ out, subset_dataframe_sv df indices = .ok out ↔
      subset_dataframe_iv df indices = .ok out) := by
  have h : subset_dataframe_sv df indices = subset_dataframe_iv df indices := by
    simp only [subset_dataframe_sv, subset_dataframe_iv, rowwise_subset_df_sv,
      rowwise_subset_df_iv]
    rfl
  exact ⟨h, fun out => by rw [h]⟩

/-! ## Lemmas on the Interval Merger -/

theorem min_start_snoc (pre : List Ival) (iv : Ival) (h : pre ≠ []) :
    min_start (pre ++ [iv]) = min (min_start pre) iv.start := by
  cases pre with
  | nil => exact absurd rfl h
  | cons a t => simp [min_start, List.foldl_append]

theorem max_end_snoc (pre : List Ival) (iv : Ival) (h : pre ≠ []) :
    max_end (pre ++ [iv]) = max (max_end pre) iv.end_ := by
  cases pre with
  | nil => exact absurd rfl h
  | cons a t => simp [max_end, List.foldl_append]

theorem extend_span_of (key : GroupKey) (pre : List Ival) (iv : Ival) (h : pre ≠ []) :
    extend_span (span_of key pre) iv = span_of key (pre ++ [iv]) := by
  simp [extend_span, span_of, min_start_snoc pre iv h, max_end_snoc pre iv h]

theorem open_span_of (key : GroupKey) (iv : Ival) : open_span key iv = span_of key [iv] := by
  simp [open_span, span_of, min_start, max_end]

theorem coalesce_spec (max_dist : Int) (key : GroupKey) :
    ∀ (rest pre : List Ival), pre ≠ [] →
      ∃ (tl : List Ival) (ps : List (List Ival)),
        coalesce max_dist key (span_of key pre) rest
          = span_of key (pre ++ tl) :: ps.map (span_of key) ∧
        tl ++ ps.flatten = rest ∧
        (∀ p ∈ ps, p ≠ []) ∧
        (∀ a iv b, tl = a ++ iv :: b → iv.start - max_end (pre ++ a) ≤ max_dist) ∧
        (∀ p ∈ ps, ∀ a iv b, p = a ++ iv :: b → a ≠ [] →
          iv.start - max_end a ≤ max_dist) ∧
        List.Chain' (span_gap max_dist) ((pre ++ tl) :: ps) := by
  intro rest
  induction rest with
  | nil =>
    intro pre _
    refine ⟨[], [], by simp [coalesce], rfl, by simp, ?_, by simp, by simp⟩
    intro a iv b h
    cases a <;> cases h
  | cons x rest ih =>
    intro pre hpre
    by_cases hx : x.start - (span_of key pre).end_ ≤ max_dist
    · obtain ⟨tl, ps, h1, h2, h3, h4, h5, h6⟩ := ih (pre ++ [x]) (by simp)
      refine ⟨x :: tl, ps, ?_, by simp [h2], h3, ?_, h5, ?_⟩
      · simp only [coalesce, hx, if_true, extend_span_of key pre x hpre, h1]
        simp
      · intro a iv b h
        cases a with
        | nil =>
          simp only [List.nil_append, List.cons.injEq] at h
          rw [← h.1]
          simpa [span_of] using hx
        | cons y a1 =>
          simp only [List.cons_append, List.cons.injEq] at h
          have := h4 a1 iv b h.2
          rw [← h.1]
          simpa using this
      · simpa using h6
    · obtain ⟨tl, ps, h1, h2, h3, h4, h5, h6⟩ := ih [x] (by simp)
      refine ⟨[], ([x] ++ tl) :: ps, ?_, by simp [h2], ?_, ?_, ?_, ?_⟩
      · simp only [coalesce, hx, if_false, open_span_of, h1]
        simp
      · intro p hp
        rcases List.mem_cons.mp hp with h | h
        · rw [h]; simp
        · exact h3 p h
      · intro a iv b h
        cases a <;> cases h
      · intro p hp a iv b h ha
        rcases List.mem_cons.mp hp with hp1 | hp1
        · subst hp1
          cases a with
          | nil => exact absurd rfl ha
          | cons y a1 =>
            simp only [List.cons_append, List.nil_append, List.cons.injEq] at h
            have := h4 a1 iv b h.2
            rw [← h.1]
            simpa using this
        · exact h5 p hp1 a iv b h ha
      · rw [List.append_nil]
        refine List.Chain'.cons ?_ h6
        intro iv hiv
        simp only [List.cons_append, List.nil_append, List.head?_cons, Option.some.injEq] at hiv
        rw [← hiv]
        have : ¬ x.start - max_end pre ≤ max_dist := by simpa [span_of] using hx
        omega

theorem merge_group_spec (max_dist : Int) (key : GroupKey) (sorted : List Ival) :
    ∃ parts : List (List Ival),
      merge_group max_dist key sorted = parts.map (span_of key) ∧
      parts.flatten = sorted ∧
      (∀ p ∈ parts, p ≠ []) ∧
      (∀ p ∈ parts, ∀ a iv b, p = a ++ iv :: b → a ≠ [] →
        iv.start - max_end a ≤ max_dist) ∧
      List.Chain' (span_gap max_dist) parts := by
  cases sorted with
  | nil => exact ⟨[], rfl, rfl, by simp, by simp, by simp⟩
  | cons first rest =>
    obtain ⟨tl, ps, h1, h2, h3, h4, h5, h6⟩ := coalesce_spec max_dist key rest [first] (by simp)
    refine ⟨([first] ++ tl) :: ps, ?_, by simp [h2], ?_, ?_, h6⟩
    · simp only [merge_group, open_span_of, h1]
      simp
    · intro p hp
      rcases List.mem_cons.mp hp with h | h
      · rw [h]; simp
      · exact h3 p h
    · intro p hp a iv b h ha
      rcases List.mem_cons.mp hp with hp1 | hp1
      · subst hp1
        cases a with
        | nil => exact absurd rfl ha
        | cons y a1 =>
          simp only [List.cons_append, List.nil_append, List.cons.injEq] at h
          have := h4 a1 iv b h.2
          rw [← h.1]
          simpa using this
      · exact h5 p hp1 a iv b h ha

theorem first_occurrences_const (g : GroupKey) :
    ∀ (ks : List GroupKey), ks ≠ [] → (∀ k ∈ ks, k = g) → first_occurrences ks = [g] := by
  intro ks
  induction ks with
  | nil => intro h _; exact absurd rfl h
  | cons k t ih =>
    intro _ hall
    have hk : k = g := hall k (List.mem_cons_self _ _)
    subst hk
    cases t with
    | nil => simp [first_occurrences]
    | cons k2 t2 =>
      have h2 := ih (by simp) (fun k1 hk1 => hall k1 (List.mem_cons_of_mem _ hk1))
      show k :: (first_occurrences (k2 :: t2)).filter (fun k1 => decide (k1 ≠ k)) = [k]
      rw [h2]
      simp

theorem group_rows_single (df : List IntervalRow) (g : GroupKey)
    (h : ∀ r ∈ df, r.group = g) : group_rows df g = df.enum.map to_ival := by
  unfold group_rows
  congr 1
  rw [List.filter_eq_self]
  intro p hp
  have : p.2 ∈ df := by
    have := List.mem_map_of_mem Prod.snd hp
    simpa [List.enum_map_snd] using this
  simpa using h p.2 this

theorem min_start_spec (p : List Ival) (h : p ≠ []) :
    (∀ iv ∈ p, min_start p ≤ iv.start) ∧ ∃ iv ∈ p, iv.start = min_start p := by
  induction p using List.reverseRecOn with
  | nil => exact absurd rfl h
  | append_singleton l a ih =>
    by_cases hl : l = []
    · subst hl; simp [min_start]
    · obtain ⟨h1, iv0, h2, h3⟩ := ih hl
      rw [min_start_snoc l a hl]
      constructor
      · intro iv hiv
        rcases List.mem_append.mp hiv with hm | hm
        · exact le_trans (min_le_left _ _) (h1 iv hm)
        · simp only [List.mem_singleton] at hm
          rw [hm]; exact min_le_right _ _
      · by_cases hc : min_start l ≤ a.start
        · exact ⟨iv0, List.mem_append_left _ h2, by rw [h3, min_eq_left hc]⟩
        · exact ⟨a, by simp, by rw [min_eq_right (by omega)]⟩

theorem max_end_spec (p : List Ival) (h : p ≠ []) :
    (∀ iv ∈ p, iv.end_ ≤ max_end p) ∧ ∃ iv ∈ p, iv.end_ = max_end p := by
  induction p using List.reverseRecOn with
  | nil => exact absurd rfl h
  | append_singleton l a ih =>
    by_cases hl : l = []
    · subst hl; simp [max_end]
    · obtain ⟨h1, iv0, h2, h3⟩ := ih hl
      rw [max_end_snoc l a hl]
      constructor
      · intro iv hiv
        rcases List.mem_append.mp hiv with hm | hm
        · exact le_trans (h1 iv hm) (le_max_left _ _)
        · simp only [List.mem_singleton] at hm
          rw [hm]; exact le_max_right _ _
      · by_cases hc : a.end_ ≤ max_end l
        · exact ⟨iv0, List.mem_append_left _ h2, by rw [h3, max_eq_left hc]⟩
        · exact ⟨a, by simp, by rw [max_eq_right (by omega)]⟩

/-! ## The claim on `merge_impl` -/

/-- C6: for a table whose rows all carry the group key `g` and
`max_dist >= 0`, `merge_impl` returns the spans of a cut of the start-sorted
intervals into consecutive non-empty runs: inside a run every interval after
the first starts at most `max_dist` past the largest end of the intervals
before it in the run (the running `span_end`), the first interval of the
next run starts more than `max_dist` past the end of the run before it, and
each span reports the smallest start and the largest end of its run, which
bound every member and are reached by one. On `[1,5)`, `[5,9)`, `[20,25)`
with `max_dist = 0` the result is the two spans `[1,9)` and `[20,25)`. -/
theorem merge_impl_single_group (df : List IntervalRow) (g : GroupKey) (max_dist : Int)
    (hg : ∀ r ∈ df, r.group = g) (hd : 0 ≤ max_dist) :
    (∃ parts : List (List Ival),
      merge_impl df max_dist = .ok (parts.map (span_of g)) ∧
      parts.flatten = sort_ivals (df.enum.map to_ival) ∧
      List.Sorted ival_le (sort_ivals (df.enum.map to_ival)) ∧
      (sort_ivals (df.enum.map to_ival)).Perm (df.enum.map to_ival) ∧
      (∀ p ∈ parts, p ≠ []) ∧
      (∀ p ∈ parts, ∀ a iv b, p = a ++ iv :: b → a ≠ [] →
        iv.start - max_end a ≤ max_dist) ∧
      List.Chain' (span_gap max_dist) parts ∧
      (∀ p ∈ parts, ∀ iv ∈ p,
        (span_of g p).start ≤ iv.start ∧ iv.end_ ≤ (span_of g p).end_) ∧
      (∀ p ∈ parts, (∃ iv ∈ p, iv.start = (span_of g p).start) ∧
        ∃ iv ∈ p, iv.end_ = (span_of g p).end_)) ∧
    merge_impl table_merge 0
      = .ok [⟨["chr1"], 1, 9, [0, 1]⟩, ⟨["chr1"], 20, 25, [2]⟩] := by
  refine ⟨?_, by decide⟩
  have hnd : ¬ max_dist < 0 := by omega
  obtain ⟨parts, h1, h2, h3, h4, h5⟩ :=
    merge_group_spec max_dist g (sort_ivals (df.enum.map to_ival))
  refine ⟨parts, ?_, h2, List.sorted_insertionSort ival_le _,
    List.perm_insertionSort ival_le _, h3, h4, h5, ?_, ?_⟩
  · cases df with
    | nil =>
      have hp : parts = [] := by
        cases parts with
        | nil => rfl
        | cons p ps =>
          have hne := h3 p (List.mem_cons_self _ _)
          have hf : (p :: ps).flatten = [] := by simpa [sort_ivals] using h2
          have : p = [] := by
            have := congrArg List.length hf
            simp only [List.flatten_cons, List.length_append, List.length_nil] at this
            exact List.length_eq_zero.mp (by omega)
          exact absurd this hne
      subst hp
      simp [merge_impl, hnd, group_keys, first_occurrences]
    | cons r t =>
      have hk : group_keys (r :: t) = [g] :=
        first_occurrences_const g _ (by simp) (by
          intro k hk
          obtain ⟨r1, hr1, hr2⟩ := List.mem_map.mp hk
          rw [← hr2]; exact hg r1 hr1)
      simp only [merge_impl, hnd, if_false, hk, List.flatMap_cons, List.flatMap_nil,
        List.append_nil, group_rows_single (r :: t) g hg, h1]
  · intro p hp iv hiv
    have hne := h3 p hp
    exact ⟨(min_start_spec p hne).1 iv hiv, (max_end_spec p hne).1 iv hiv⟩
  · intro p hp
    have hne := h3 p hp
    exact ⟨(min_start_spec p hne).2, (max_end_spec p hne).2⟩

/-- Witness of C6 on two abutting intervals and one further away, with
`max_dist = 2`. -/
theorem merge_impl_single_group_witness :
    (∃ parts : List (List Ival),
      merge_impl [⟨["chr2"], 30, 40⟩, ⟨["chr2"], 1, 5⟩, ⟨["chr2"], 7, 9⟩] 2
        = .ok (parts.map (span_of ["chr2"])) ∧
      parts.flatten = sort_ivals
        (([⟨["chr2"], 30, 40⟩, ⟨["chr2"], 1, 5⟩, ⟨["chr2"], 7, 9⟩] :
          List IntervalRow).enum.map to_ival) ∧
      List.Sorted ival_le (sort_ivals
        (([⟨["chr2"], 30, 40⟩, ⟨["chr2"], 1, 5⟩, ⟨["chr2"], 7, 9⟩] :
          List IntervalRow).enum.map to_ival)) ∧
      (sort_ivals
        (([⟨["chr2"], 30, 40⟩, ⟨["chr2"], 1, 5⟩, ⟨["chr2"], 7, 9⟩] :
          List IntervalRow).enum.map to_ival)).Perm
        (([⟨["chr2"], 30, 40⟩, ⟨["chr2"], 1, 5⟩, ⟨["chr2"], 7, 9⟩] :
          List IntervalRow).enum.map to_ival) ∧
      (∀ p ∈ parts, p ≠ []) ∧
      (∀ p ∈ parts, ∀ a iv b, p = a ++ iv :: b → a ≠ [] →
        iv.start - max_end a ≤ 2) ∧
      List.Chain' (span_gap 2) parts ∧
      (∀ p ∈ parts, ∀ iv ∈ p,
        (span_of ["chr2"] p).start ≤ iv.start ∧ iv.end_ ≤ (span_of ["chr2"] p).end_) ∧
      (∀ p ∈ parts, (∃ iv ∈ p, iv.start = (span_of ["chr2"] p).start) ∧
        ∃ iv ∈ p, iv.end_ = (span_of ["chr2"] p).end_)) ∧
    merge_impl table_merge 0
      = .ok [⟨["chr1"], 1, 9, [0, 1]⟩, ⟨["chr1"], 20, 25, [2]⟩] :=
  merge_impl_single_group [⟨["chr2"], 30, 40⟩, ⟨["chr2"], 1, 5⟩, ⟨["chr2"], 7, 9⟩]
    ["chr2"] 2 (by decide) (by decide)

/-! ## Lemmas on the Interval Sweep Intersector -/

theorem overlaps_iff (a b : Ival) :
    overlaps a b = true ↔ a.start < b.end_ ∧ b.start < a.end_ := by
  simp [overlaps]

theorem dropWhile_no_overlap (a : Ival) :
    ∀ (pending : List Ival), pending.Pairwise (fun x y => x.start ≤ y.start) →
      (pending.dropWhile (fun b => decide (b.start < a.end_))).filter
        (fun b => overlaps a b) = [] := by
  intro pending
  induction pending with
  | nil => intro _; rfl
  | cons x t ih =>
    intro hp
    rw [List.pairwise_cons] at hp
    by_cases hx : x.start < a.end_
    · simp only [List.dropWhile_cons, hx, decide_True, if_true]
      exact ih hp.2
    · simp only [List.dropWhile_cons, hx, decide_False]
      rw [List.filter_eq_nil_iff]
      intro y hy
      rw [overlaps_iff]
      rcases List.mem_cons.mp hy with h | h
      · rw [h]; omega
      · have := hp.1 y h
        omega

theorem sweep_eq (bs : List Ival) :
    ∀ (as : List Ival) (s : Int) (done pending : List Ival),
      done ++ pending = bs →
      (∀ a ∈ as, s ≤ a.start) →
      as.Pairwise (fun x y => x.start ≤ y.start) →
      pending.Pairwise (fun x y => x.start ≤ y.start) →
      sweep as (done.filter (fun b => decide (s < b.end_))) pending
        = as.flatMap (fun a =>
            (bs.filter (fun b => overlaps a b)).map (fun b => (a.row, b.row))) := by
  intro as
  induction as with
  | nil => intro s done pending _ _ _ _; rfl
  | cons a rest ih =>
    intro s done pending hbs hs hpa hpp
    have hsa : s ≤ a.start := hs a (List.mem_cons_self _ _)
    rw [List.pairwise_cons] at hpa
    have hact : (done.filter (fun b => decide (s < b.end_))).filter
        (fun b => decide (a.start < b.end_)) = done.filter (fun b => decide (a.start < b.end_)) := by
      rw [List.filter_filter]
      apply List.filter_congr
      intro b _
      by_cases h : a.start < b.end_
      · have : s < b.end_ := by omega
        simp [h, this]
      · simp [h]
    have hsplit : pending.takeWhile (fun b => decide (b.start < a.end_))
        ++ pending.dropWhile (fun b => decide (b.start < a.end_)) = pending :=
      List.takeWhile_append_dropWhile _ _
    have hov : ∀ (l : List Ival), (l.filter (fun b => decide (a.start < b.end_))).filter
        (fun b => overlaps a b) = l.filter (fun b => overlaps a b) := by
      intro l
      rw [List.filter_filter]
      apply List.filter_congr
      intro b _
      by_cases h : a.start < b.end_
      · simp [h]
      · simp [h, overlaps]
    have hout : (sweep_step a (done.filter (fun b => decide (s < b.end_))) pending).1
        = (bs.filter (fun b => overlaps a b)).map (fun b => (a.row, b.row)) := by
      simp only [sweep_step, hact]
      congr 1
      rw [← hbs]
      conv_rhs => rw [← hsplit]
      rw [List.filter_append, List.filter_append, List.filter_append, hov,
        dropWhile_no_overlap a pending hpp, List.append_nil]
    have hnext : (sweep_step a (done.filter (fun b => decide (s < b.end_))) pending).2.1
        = (done ++ pending.takeWhile (fun b => decide (b.start < a.end_))).filter
            (fun b => decide (a.start < b.end_)) := by
      simp only [sweep_step, hact, List.filter_append]
    have hpend : (sweep_step a (done.filter (fun b => decide (s < b.end_))) pending).2.2
        = pending.dropWhile (fun b => decide (b.start < a.end_)) := rfl
    simp only [sweep, List.flatMap_cons]
    rw [hout, hnext, hpend]
    congr 1
    apply ih a.start
    · rw [List.append_assoc, hsplit, hbs]
    · exact hpa.1
    · exact hpa.2
    · exact List.Pairwise.sublist (List.dropWhile_sublist _) hpp

theorem sort_ivals_pairwise (l : List Ival) :
    (sort_ivals l).Pairwise (fun x y => x.start ≤ y.start) := by
  have h : List.Sorted ival_le (sort_ivals l) := List.sorted_insertionSort ival_le l
  refine List.Pairwise.imp ?_ h
  intro x y hxy
  unfold ival_le at hxy
  omega

theorem intersect_group_eq (rows_a rows_b : List Ival) :
    intersect_group rows_a rows_b
      = (sort_ivals (rows_a.filter has_points)).flatMap (fun a =>
          ((sort_ivals (rows_b.filter has_points)).filter
            (fun b => overlaps a b)).map (fun b => (a.row, b.row))) := by
  unfold intersect_group
  cases hs : sort_ivals (rows_a.filter has_points) with
  | nil => rfl
  | cons a rest =>
    have hp := sort_ivals_pairwise (rows_a.filter has_points)
    rw [hs] at hp
    have := sweep_eq (sort_ivals (rows_b.filter has_points)) (a :: rest) a.start []
      (sort_ivals (rows_b.filter has_points)) rfl
      (by
        intro x hx
        rcases List.mem_cons.mp hx with h | h
        · rw [h]
        · exact (List.pairwise_cons.mp hp).1 x h)
      hp (sort_ivals_pairwise _)
    simpa using this

theorem mem_sort_ivals (l : List Ival) (x : Ival) : x ∈ sort_ivals l ↔ x ∈ l :=
  (List.perm_insertionSort ival_le l).mem_iff

theorem mem_intersect_group (rows_a rows_b : List Ival) (i j : Nat) :
    (i, j) ∈ intersect_group rows_a rows_b ↔
      ∃ x ∈ rows_a, ∃ y ∈ rows_b, x.start < x.end_ ∧ y.start < y.end_ ∧
        x.start < y.end_ ∧ y.start < x.end_ ∧ x.row = i ∧ y.row = j := by
  rw [intersect_group_eq]
  simp only [List.mem_flatMap, List.mem_map, List.mem_filter, mem_sort_ivals, has_points,
    decide_eq_true_eq, overlaps_iff, Prod.mk.injEq]
  constructor
  · rintro ⟨x, ⟨hx, hxp⟩, y, ⟨⟨hy, hyp⟩, ho1, ho2⟩, h1, h2⟩
    exact ⟨x, hx, y, hy, hxp, hyp, ho1, ho2, h1, h2⟩
  · rintro ⟨x, hx, y, hy, hxp, hyp, ho1, ho2, h1, h2⟩
    exact ⟨x, ⟨hx, hxp⟩, y, ⟨⟨hy, hyp⟩, ho1, ho2⟩, h1, h2⟩

theorem nodup_pairs {α β : Type} (A : List α) (B : α → List β) (fa : α → Nat) (fb : β → Nat)
    (hA : (A.map fa).Nodup) (hB : ∀ x ∈ A, ((B x).map fb).Nodup) :
    (A.flatMap (fun x => (B x).map (fun y => (fa x, fb y)))).Nodup := by
  rw [List.nodup_flatMap]
  constructor
  · intro x hx
    have he : (B x).map (fun y => (fa x, fb y)) = ((B x).map fb).map (Prod.mk (fa x)) := by
      simp [List.map_map]
    rw [he]
    exact List.Nodup.map (fun n m h => (Prod.mk.inj h).2) (hB x hx)
  · have hpw : A.Pairwise (fun x y => fa x ≠ fa y) := List.pairwise_map.mp hA
    refine List.Pairwise.imp ?_ hpw
    intro x y hne
    show List.Disjoint _ _
    intro q h1 h2
    obtain ⟨u, _, hu⟩ := List.mem_map.mp h1
    obtain ⟨v, _, hv⟩ := List.mem_map.mp h2
    rw [← hv] at hu
    exact hne (Prod.mk.inj hu).1

theorem sort_filter_rows_nodup (l : List Ival) (h : (l.map (fun iv => iv.row)).Nodup) :
    ((sort_ivals (l.filter has_points)).map (fun iv => iv.row)).Nodup := by
  have hperm : ((sort_ivals (l.filter has_points)).map (fun iv => iv.row)).Perm
      ((l.filter has_points).map (fun iv => iv.row)) :=
    (List.perm_insertionSort ival_le _).map _
  rw [hperm.nodup_iff]
  exact List.Nodup.sublist ((List.filter_sublist l).map _) h

theorem intersect_group_nodup (rows_a rows_b : List Ival)
    (ha : (rows_a.map (fun iv => iv.row)).Nodup)
    (hb : (rows_b.map (fun iv => iv.row)).Nodup) :
    (intersect_group rows_a rows_b).Nodup := by
  rw [intersect_group_eq]
  apply nodup_pairs (sort_ivals (rows_a.filter has_points))
    (fun a => (sort_ivals (rows_b.filter has_points)).filter (fun b => overlaps a b))
    (fun iv => iv.row) (fun iv => iv.row) (sort_filter_rows_nodup rows_a ha)
  intro x _
  exact List.Nodup.sublist ((List.filter_sublist _).map _) (sort_filter_rows_nodup rows_b hb)

theorem enum_filter_fst_nodup (t : List IntervalRow) (p : Nat × IntervalRow → Bool) :
    ((t.enum.filter p).map Prod.fst).Nodup := by
  have hsub : List.Sublist ((t.enum.filter p).map Prod.fst) (t.enum.map Prod.fst) :=
    (List.filter_sublist _).map _
  rw [List.enum_map_fst] at hsub
  exact List.Nodup.sublist hsub (List.nodup_range _)

theorem group_rows_nodup (t : List IntervalRow) (key : GroupKey) :
    ((group_rows t key).map (fun iv => iv.row)).Nodup := by
  have he : (group_rows t key).map (fun iv => iv.row)
      = (t.enum.filter (fun p => decide (p.2.group = key))).map Prod.fst := by
    simp [group_rows, List.map_map, Function.comp_def, to_ival]
  rw [he]
  exact enum_filter_fst_nodup t _

theorem mem_group_rows (t : List IntervalRow) (key : GroupKey) (x : Ival) :
    x ∈ group_rows t key ↔
      ∃ r, t.get? x.row = some r ∧ r.group = key ∧ x.start = r.start ∧ x.end_ = r.end_ := by
  simp only [group_rows, List.mem_map, List.mem_filter, decide_eq_true_eq,
    List.mem_enum_iff_getElem?, List.get?_eq_getElem?]
  constructor
  · rintro ⟨p, ⟨hp, hk⟩, rfl⟩
    exact ⟨p.2, hp, hk, rfl, rfl⟩
  · rintro ⟨r, hr, hk, h1, h2⟩
    refine ⟨(x.row, r), ⟨hr, hk⟩, ?_⟩
    cases x
    simp_all [to_ival]

theorem mem_first_occurrences (k : GroupKey) :
    ∀ (ks : List GroupKey), k ∈ first_occurrences ks ↔ k ∈ ks := by
  intro ks
  induction ks with
  | nil => simp [first_occurrences]
  | cons k0 t ih =>
    simp only [first_occurrences, List.mem_cons, List.mem_filter, ih, decide_eq_true_eq]
    by_cases h : k = k0
    · simp [h]
    · simp [h]

theorem first_occurrences_nodup : ∀ (ks : List GroupKey), (first_occurrences ks).Nodup := by
  intro ks
  induction ks with
  | nil => simp [first_occurrences]
  | cons k0 t ih =>
    simp only [first_occurrences, List.nodup_cons, List.mem_filter, decide_eq_true_eq]
    exact ⟨fun h => h.2 rfl, List.Nodup.sublist (List.filter_sublist _) ih⟩

theorem mem_group_keys (t : List IntervalRow) (k : GroupKey) :
    k ∈ group_keys t ↔ ∃ r ∈ t, r.group = k := by
  simp [group_keys, mem_first_occurrences]

theorem mem_intersect_impl (df_a df_b : List IntervalRow) (i j : Nat) :
    (i, j) ∈ intersect_impl df_a df_b ↔
      ∃ ra rb, df_a.get? i = some ra ∧ df_b.get? j = some rb ∧ ra.group = rb.group ∧
        ra.start < ra.end_ ∧ rb.start < rb.end_ ∧
        ra.start < rb.end_ ∧ rb.start < ra.end_ := by
  simp only [intersect_impl, List.mem_flatMap, mem_intersect_group, match_groups,
    List.mem_filter, decide_eq_true_eq, mem_group_keys, mem_group_rows,
    List.get?_eq_getElem?]
  constructor
  · rintro ⟨k, _, x, ⟨ra, hra, hka, hs, he⟩, y, ⟨rb, hrb, hkb, hs2, he2⟩, h1, h2, h3, h4,
      hi, hj⟩
    subst hi hj
    refine ⟨ra, rb, hra, hrb, by rw [hka, hkb], ?_, ?_, ?_, ?_⟩ <;> omega
  · rintro ⟨ra, rb, hra, hrb, hg, h1, h2, h3, h4⟩
    refine ⟨ra.group, ⟨⟨ra, List.getElem?_mem hra, rfl⟩, ⟨rb, List.getElem?_mem hrb, hg.symm⟩⟩,
      ⟨ra.start, ra.end_, i⟩, ⟨ra, hra, rfl, rfl, rfl⟩,
      ⟨rb.start, rb.end_, j⟩, ⟨rb, hrb, hg.symm, rfl, rfl⟩, h1, h2, h3, h4, rfl, rfl⟩

theorem intersect_impl_nodup (df_a df_b : List IntervalRow) :
    (intersect_impl df_a df_b).Nodup := by
  unfold intersect_impl
  rw [List.nodup_flatMap]
  constructor
  · intro k _
    exact intersect_group_nodup _ _ (group_rows_nodup df_a k) (group_rows_nodup df_b k)
  · have hnd : (match_groups (group_keys df_a) (group_keys df_b)).Nodup :=
      List.Nodup.sublist (List.filter_sublist _) (first_occurrences_nodup _)
    refine List.Pairwise.imp ?_ hnd
    intro k1 k2 hne
    show List.Disjoint _ _
    intro q h1 h2
    obtain ⟨i, j⟩ := q
    rw [mem_intersect_group] at h1 h2
    obtain ⟨x, hx, _, _, _, _, _, _, hxi, _⟩ := h1
    obtain ⟨y, hy, _, _, _, _, _, _, hyi, _⟩ := h2
    obtain ⟨r1, hr1, hk1, _, _⟩ := (mem_group_rows df_a k1 x).mp hx
    obtain ⟨r2, hr2, hk2, _, _⟩ := (mem_group_rows df_a k2 y).mp hy
    rw [hxi] at hr1
    rw [hyi, hr1] at hr2
    simp only [Option.some.injEq] at hr2
    rw [hr2] at hk1
    exact hne (hk1.symm.trans hk2)

theorem mem_brute_force_nonempty_pairs (df_a df_b : List IntervalRow) (i j : Nat) :
    (i, j) ∈ brute_force_nonempty_pairs df_a df_b ↔
      ∃ ra rb, df_a.get? i = some ra ∧ df_b.get? j = some rb ∧ ra.group = rb.group ∧
        ra.start < ra.end_ ∧ rb.start < rb.end_ ∧
        ra.start < rb.end_ ∧ rb.start < ra.end_ := by
  simp only [brute_force_nonempty_pairs, List.mem_flatMap, List.mem_map, List.mem_filter,
    Bool.and_eq_true, decide_eq_true_eq, List.mem_enum_iff_getElem?, Prod.mk.injEq,
    List.get?_eq_getElem?]
  constructor
  · rintro ⟨pa, hpa, pb, ⟨hpb, ⟨⟨⟨⟨hg, h1⟩, h2⟩, h3⟩, h4⟩⟩, hi, hj⟩
    subst hi hj
    exact ⟨pa.2, pb.2, hpa, hpb, hg, h1, h2, h3, h4⟩
  · rintro ⟨ra, rb, hra, hrb, hg, h1, h2, h3, h4⟩
    exact ⟨(i, ra), hra, (j, rb), ⟨hrb, ⟨⟨⟨⟨hg, h1⟩, h2⟩, h3⟩, h4⟩⟩, rfl, rfl⟩

theorem brute_force_nonempty_pairs_nodup (df_a df_b : List IntervalRow) :
    (brute_force_nonempty_pairs df_a df_b).Nodup := by
  unfold brute_force_nonempty_pairs
  apply nodup_pairs df_a.enum _ Prod.fst Prod.fst
  · rw [List.enum_map_fst]; exact List.nodup_range _
  · intro x _
    exact enum_filter_fst_nodup df_b _

theorem brute_force_pairs_of_nonempty (df_a df_b : List IntervalRow)
    (ha : ∀ r ∈ df_a, r.start < r.end_) (hb : ∀ r ∈ df_b, r.start < r.end_) :
    brute_force_pairs df_a df_b = brute_force_nonempty_pairs df_a df_b := by
  unfold brute_force_pairs brute_force_nonempty_pairs
  apply List.flatMap_congr
  intro pa hpa
  congr 1
  apply List.filter_congr
  intro pb hpb
  have h1 : pa.2.start < pa.2.end_ := ha pa.2 (by
    have := List.mem_map_of_mem Prod.snd hpa
    simpa [List.enum_map_snd] using this)
  have h2 : pb.2.start < pb.2.end_ := hb pb.2 (by
    have := List.mem_map_of_mem Prod.snd hpb
    simpa [List.enum_map_snd] using this)
  simp [h1, h2]

/-! ## The claim on `intersect_impl` -/

/-- C5 as stated fails: the degenerate interval `[5,5)` and `[1,10)` of the
same group satisfy `start_a < end_b` and `start_b < end_a`, so the
brute-force comparison of the claim counts the pair, while the sweep, which
skips an interval that holds no point, reports nothing. -/
theorem intersect_impl_skips_degenerate :
    intersect_impl table_degenerate table_cover = [] ∧
    brute_force_pairs table_degenerate table_cover = [(0, 0)] ∧
    (intersect_impl table_degenerate table_cover).length
      ≠ (brute_force_pairs table_degenerate table_cover).length := by
  decide

/-- C5 amended: `intersect_impl` reports exactly the pairs of rows of one
group whose intervals both hold a point (`start < end`) and satisfy
`start_a < end_b` and `start_b < end_a`, each once: the result has no
duplicate, is a rearrangement of the brute-force comparison over the
intervals that hold a point, has its length, and every reported pair has a
positive overlap length. When every interval of both tables has
`start < end`, the result is a rearrangement of the brute-force comparison by
the bare rule `start_a < end_b` and `start_b < end_a`. -/
theorem intersect_impl_brute_force (df_a df_b : List IntervalRow) :
    (intersect_impl df_a df_b).Nodup ∧
    (intersect_impl df_a df_b).Perm (brute_force_nonempty_pairs df_a df_b) ∧
    (intersect_impl df_a df_b).length = (brute_force_nonempty_pairs df_a df_b).length ∧
    (∀ i j, (i, j) ∈ intersect_impl df_a df_b ↔
      ∃ ra rb, df_a.get? i = some ra ∧ df_b.get? j = some rb ∧ ra.group = rb.group ∧
        ra.start < ra.end_ ∧ rb.start < rb.end_ ∧
        ra.start < rb.end_ ∧ rb.start < ra.end_) ∧
    (∀ i j ra rb, (i, j) ∈ intersect_impl df_a df_b →
      df_a.get? i = some ra → df_b.get? j = some rb → 0 < overlap_length ra rb) ∧
    ((∀ r ∈ df_a, r.start < r.end_) → (∀ r ∈ df_b, r.start < r.end_) →
      (intersect_impl df_a df_b).Perm (brute_force_pairs df_a df_b)) := by
  have hperm : (intersect_impl df_a df_b).Perm (brute_force_nonempty_pairs df_a df_b) := by
    rw [List.perm_ext_iff_of_nodup (intersect_impl_nodup df_a df_b)
      (brute_force_nonempty_pairs_nodup df_a df_b)]
    intro q
    obtain ⟨i, j⟩ := q
    rw [mem_intersect_impl, mem_brute_force_nonempty_pairs]
  refine ⟨intersect_impl_nodup df_a df_b, hperm, hperm.length_eq,
    mem_intersect_impl df_a df_b, ?_, ?_⟩
  · intro i j ra rb hm hra hrb
    obtain ⟨ra1, rb1, h1, h2, _, h4, h5, h6, h7⟩ := (mem_intersect_impl df_a df_b i j).mp hm
    rw [hra] at h1
    rw [hrb] at h2
    simp only [Option.some.injEq] at h1 h2
    subst h1 h2
    unfold overlap_length
    omega
  · intro ha hb
    rw [brute_force_pairs_of_nonempty df_a df_b ha hb]
    exact hperm

end Valr
